import Mathlib

/-!
# ndt-server (ndt7 over WebSocket and WebTransport): sender, receiver, orchestrator

A shallow embedding of `ndt7/receiver/receiver.go`, `ndt7/upload/sender/sender.go`,
`ndt7/ping/ping.go` and `ndt7/download/download.go`.

The Go functions talk to a connection, a clock and a channel.  Each of them is
embedded as a total function of a *script*: the outcomes that the outside world
hands to the function, in program order (what `NextReader` returned, whether a
write failed, what the clock said).  The function returns the archival record
it leaves behind, the value it returns, and the trace of the calls it made on
the connection.  Calls to the logger are left out.
-/

namespace Ndt7

/-! ## Data model (package `model`, `metadata`) -/

/-- Go `error` values; `none` stands for `nil`. -/
abbrev Error := String

/-- Instants of `time.Time`, as a count of nanoseconds. -/
abbrev Time := Int

/-- Modelled from the spec: `model.ConnectionInfo`, declared in a package
that is not embedded here; the fields are those set by the measurer loop. -/
structure ConnectionInfo where
  Client : String
  Server : String
  UUID : String
deriving DecidableEq, Repr

/-- Modelled from the spec: `model.TCPInfo`, declared in a package
that is not embedded here; the fields are the ones the handler reads (all `int64`). -/
structure TCPInfo where
  BytesReceived : Int
  BytesAcked : Int
  ElapsedTime : Int
deriving DecidableEq, Repr

/-- Modelled from the spec: `model.QUICInfo`, declared in a package
that is not embedded here; the fields are the ones the measurer and the sender set. -/
structure QUICInfo where
  ElapsedTime : Int
  QUICStreamBytesReceived : Int
deriving DecidableEq, Repr

/-- Modelled from the spec: `model.Measurement`, declared in a package
that is not embedded here; a pointer field that is `nil` is `none`. -/
structure Measurement where
  ConnectionInfo : Option ConnectionInfo
  TCPInfo : Option TCPInfo
  QUICInfo : Option QUICInfo
deriving DecidableEq, Repr

/-- Modelled from the spec: `metadata.NameValue`, declared in a package
that is not embedded here. -/
structure NameValue where
  Name : String
  Value : String
deriving DecidableEq, Repr

/-- Modelled from the spec: `model.ArchivalData`, declared in a package
that is not embedded here; the fields are the ones read or written here. -/
structure ArchivalData where
  UUID : String
  StartTime : Time
  EndTime : Time
  ServerMeasurements : List Measurement
  ClientMeasurements : List Measurement
  ClientMetadata : List NameValue
  ServerMetadata : List NameValue
deriving DecidableEq, Repr

/-! ## Receiver (`ndt7/receiver/receiver.go`) -/

/-- The two kinds of receiver, `receiverKind(iota)`. -/
inductive receiverKind where
  | downloadReceiver
  | uploadReceiver
deriving DecidableEq, Repr

/-- Value of `fmt.Sprint(kind)`, the kind label of the error counter. -/
def receiverKind.label : receiverKind → String
  | .downloadReceiver => "0"
  | .uploadReceiver => "1"

/-- Constant `websocket.TextMessage` of the WebSocket library. -/
def TextMessage : Int := 1

/-- Constant `websocket.BinaryMessage` of the WebSocket library. -/
def BinaryMessage : Int := 2

/-- One turn of the loop of `start`, as the outside world decides it. -/
inductive RecvEvent where
  /-- At the head of the loop `receiverctx.Err()` is not `nil`. -/
  | ctxExpired
  /-- The call `conn.NextReader()` returned an error. -/
  | readError
  /-- The call `conn.NextReader()` returned a message of type `mtype`; `body`
  is what `ioutil.ReadAll(r)` yields if it is called (`none`: it fails). -/
  | message (mtype : Int) (body : Option String)
deriving DecidableEq, Repr

/-- What a receiver leaves behind. `stopped` is the pair of labels (kind,
reason) of the `ClientReceiverErrors` counter incremented when the function
returned, and `none` when the script ended with the receiver still reading. -/
structure RecvResult where
  data : ArchivalData
  stopped : Option (String × String)
deriving DecidableEq, Repr

/-- The `for receiverctx.Err() == nil` loop of `start`. `unmarshal` stands for
`json.Unmarshal` into a `model.Measurement` (`none`: it returns an error). -/
def startLoop (unmarshal : String → Option Measurement) (kind : receiverKind) :
    List RecvEvent → ArchivalData → RecvResult
  | [], data => { data := data, stopped := none }
  | .ctxExpired :: _, data =>
      { data := data, stopped := some (kind.label, "receiver-context-expired") }
  | .readError :: _, data =>
      { data := data, stopped := some (kind.label, "read-message-type") }
  | .message mtype body :: rest, data =>
      if mtype ≠ TextMessage then
        match kind with
        | .downloadReceiver =>
            { data := data, stopped := some (kind.label, "wrong-message-type") }
        | .uploadReceiver => startLoop unmarshal kind rest data
      else
        match body with
        | none => { data := data, stopped := some (kind.label, "read-message") }
        | some mdata =>
            match unmarshal mdata with
            | none =>
                { data := data, stopped := some (kind.label, "unmarshal-client-message") }
            | some measurement =>
                startLoop unmarshal kind rest
                  { data with ClientMeasurements := data.ClientMeasurements ++ [measurement] }

/-- Function `start` of the receiver. `deadlineErr` is the result of
`conn.SetReadDeadline`. The pong handler only logs; a pong it rejects
surfaces as a `readError` of `NextReader`. -/
def start (unmarshal : String → Option Measurement) (deadlineErr : Option Error)
    (kind : receiverKind) (events : List RecvEvent) (data : ArchivalData) : RecvResult :=
  match deadlineErr with
  | some _ => { data := data, stopped := some (kind.label, "set-read-deadline") }
  | none => startLoop unmarshal kind events data

/-- Function `StartDownloadReceiverAsync`: runs `start` with `downloadReceiver`. -/
def StartDownloadReceiverAsync (unmarshal : String → Option Measurement)
    (deadlineErr : Option Error) (events : List RecvEvent) (data : ArchivalData) : RecvResult :=
  start unmarshal deadlineErr .downloadReceiver events data

/-- Function `StartUploadReceiverAsync`: runs `start` with `uploadReceiver`. -/
def StartUploadReceiverAsync (unmarshal : String → Option Measurement)
    (deadlineErr : Option Error) (events : List RecvEvent) (data : ArchivalData) : RecvResult :=
  start unmarshal deadlineErr .uploadReceiver events data

/-- A message that is not a text message. -/
def RecvEvent.isNonText : RecvEvent → Bool
  | .message mtype _ => decide (mtype ≠ TextMessage)
  | _ => false

/-- The events that end the loop of `start`: an expired context, a read error
(of `NextReader` or of `ReadAll`), a text payload that does not decode, and for
the download receiver a message that is not text. -/
def RecvEvent.terminates (unmarshal : String → Option Measurement) (kind : receiverKind) :
    RecvEvent → Bool
  | .ctxExpired => true
  | .readError => true
  | .message mtype body =>
      if mtype ≠ TextMessage then decide (kind = .downloadReceiver)
      else match body with
        | none => true
        | some mdata => (unmarshal mdata).isNone

/-- The measurement a text message decodes to, if the event is one. -/
def RecvEvent.decoded (unmarshal : String → Option Measurement) : RecvEvent → Option Measurement
  | .message mtype (some mdata) => if mtype = TextMessage then unmarshal mdata else none
  | _ => none

/-! ## Calls on the connection -/

/-- What a message is written on: the WebSocket connection, or the `id`-th
unidirectional stream handed out by the WebTransport session. -/
inductive Target where
  | conn
  | stream (id : Nat)
deriving DecidableEq, Repr

/-- The calls a sender makes, each with the error it returned, and its writes
to the time stamps of the archival record. -/
inductive Op where
  /-- Call `mr.Start(ctx, spec.DefaultRuntime)`. -/
  | measurerStart
  /-- Deferred call `mr.Stop(src)`. -/
  | measurerStop
  /-- Call `SetWriteDeadline(deadline)` on the connection or on a stream. -/
  | setWriteDeadline (tgt : Target) (deadline : Time) (err : Option Error)
  /-- Call `sess.OpenUniStream()`; on success it returned stream `id`. -/
  | openUniStream (id : Nat) (err : Option Error)
  /-- Call `sess.OpenUniStreamSync(ctx)`; on success it returned stream `id`. -/
  | openUniStreamSync (id : Nat) (err : Option Error)
  /-- Assignment `data.StartTime = time.Now().UTC()`. -/
  | setStartTime (t : Time)
  /-- Deferred assignment `data.EndTime = time.Now().UTC()`. -/
  | setEndTime (t : Time)
  /-- Receive `m, ok := <-src`; `none` when the channel is closed. -/
  | recv (m : Option Measurement)
  /-- A measurement message written: `conn.WriteJSON(m)` on the connection,
  `json.NewEncoder(str).Encode(v)` on a stream. -/
  | write (tgt : Target) (m : Measurement) (err : Option Error)
  /-- Call `Close()` on stream `id`. -/
  | close (id : Nat) (err : Option Error)
  /-- Call `closer.StartClosing(conn)`. -/
  | startClosing
  /-- Call `conn.WriteControl(messageType, data, deadline)`. -/
  | writeControl (messageType : Int) (data : String) (deadline : Time) (err : Option Error)
  /-- Increment of `ClientSenderErrors` with this reason label. -/
  | metric (label : String)
deriving DecidableEq, Repr

/-- What a sender leaves behind: the archival record, the returned error and
the calls it made, in order. -/
structure SenderResult where
  data : ArchivalData
  err : Option Error
  trace : List Op
deriving DecidableEq, Repr

/-- Conversion of a `uint64` to `int64`, as in `int64(mr.BytesReceived)`. -/
def toInt64 (n : Nat) : Int :=
  if n % 2 ^ 64 < 2 ^ 63 then ((n % 2 ^ 64 : Nat) : Int) else ((n % 2 ^ 64 : Nat) : Int) - 2 ^ 64

/-! ## Timing probe (`ndt7/ping/ping.go`) -/

/-- Constant `websocket.PingMessage` of the WebSocket library. -/
def PingMessage : Int := 9

/-- The call `json.Marshal` on an `int64`: the decimal digits, and no error. -/
def jsonMarshalInt64 (v : Int) : String × Option Error := (toString v, none)

/-- Function `SendTicks`. `now` is `time.Now().UnixNano()` and `writeErr` the
result of `conn.WriteControl`. -/
def SendTicks (now : Time) (deadline : Time) (writeErr : Option Error) : List Op × Option Error :=
  let ticks := now
  match jsonMarshalInt64 ticks with
  | (data, none) => ([.writeControl PingMessage data deadline writeErr], writeErr)
  | (_, some err) => ([], some err)

/-- Function `SendTicksWebTransport`: its body is commented out but for
`return nil`. -/
def SendTicksWebTransport (_deadline : Time) : List Op × Option Error := ([], none)

/-! ## Sender (`ndt7/upload/sender/sender.go`) -/

/-- One turn of the loop of `Start`: the sample received from the measurer and
the outcomes of the calls made with it. -/
structure SendStep where
  m : Measurement
  writeErr : Option Error
  now : Time
  pingErr : Option Error
deriving DecidableEq, Repr

/-- The script of one run of `Start`: the runtime bound `spec.MaxRuntime`, the
three clock readings outside the loop, the result of `conn.SetWriteDeadline`,
and the samples the measurer emits before it closes its channel. -/
structure SenderEnv where
  MaxRuntime : Int
  now : Time
  deadlineErr : Option Error
  startNow : Time
  endNow : Time
  steps : List SendStep
deriving DecidableEq, Repr

/-- The `for` loop of `Start`. -/
def senderLoop (deadline : Time) : List SendStep → ArchivalData → SenderResult
  | [], data =>
      { data := data, err := none,
        trace := [.recv none, .startClosing, .metric "measurer-closed"] }
  | s :: rest, data =>
      match s.writeErr with
      | some err =>
          { data := data, err := some err,
            trace := [.recv (some s.m), .write .conn s.m (some err), .metric "write-json"] }
      | none =>
          let data := { data with ServerMeasurements := data.ServerMeasurements ++ [s.m] }
          match SendTicks s.now deadline s.pingErr with
          | (ops, some err) =>
              { data := data, err := some err,
                trace := [.recv (some s.m), .write .conn s.m none] ++ ops
                  ++ [.metric "ping-send-ticks"] }
          | (ops, none) =>
              let r := senderLoop deadline rest data
              { r with trace := [.recv (some s.m), .write .conn s.m none] ++ ops ++ r.trace }

/-- Function `Start` of the sender. -/
def Start (env : SenderEnv) (data : ArchivalData) : SenderResult :=
  let deadline := env.now + env.MaxRuntime
  match env.deadlineErr with
  | some err =>
      { data := data, err := some err,
        trace := [.measurerStart, .setWriteDeadline .conn deadline (some err),
          .metric "set-write-deadline", .measurerStop] }
  | none =>
      let data := { data with StartTime := env.startNow }
      let r := senderLoop deadline env.steps data
      { data := { r.data with EndTime := env.endNow }, err := r.err,
        trace := [.measurerStart, .setWriteDeadline .conn deadline none,
          .setStartTime env.startNow] ++ r.trace ++ [.setEndTime env.endNow, .measurerStop] }

/-- Function `writeJSON`: encodes `v` on stream `id`, closes the stream, and
returns the first of the two errors. The copy it prints on the standard output
is left out. -/
def writeJSON (id : Nat) (v : Measurement) (encodeErr closeErr : Option Error) :
    List Op × Option Error :=
  let err1 := encodeErr
  let err2 := closeErr
  ([.write (.stream id) v err1, .close id err2],
    match err1 with
    | some err => some err
    | none => err2)

/-- One turn of the loop of `StartWebTransport`: the sample received, the value
of `mr.BytesReceived` read in this turn, and the outcomes of
`sess.OpenUniStreamSync`, of the two calls inside `writeJSON`, and of the
`jsonStr.Close()` that follows. -/
structure WTSendStep where
  m : Measurement
  bytesReceived : Nat
  openErr : Option Error
  encodeErr : Option Error
  closeErr : Option Error
  close2Err : Option Error
deriving DecidableEq, Repr

/-- The script of one run of `StartWebTransport`. -/
structure WTSenderEnv where
  MaxRuntime : Int
  now : Time
  openErr : Option Error
  deadlineErr : Option Error
  startNow : Time
  endNow : Time
  steps : List WTSendStep
deriving DecidableEq, Repr

/-- The value `m` holds once `m.QUICInfo` has been replaced. -/
def WTSendStep.written (s : WTSendStep) : Measurement :=
  { s.m with QUICInfo := some { ElapsedTime := 0,
                                QUICStreamBytesReceived := toInt64 s.bytesReceived } }

/-- The `for` loop of `StartWebTransport`; `next` numbers the stream the next
`OpenUniStreamSync` returns. -/
def webTransportSenderLoop (deadline : Time) :
    Nat → List WTSendStep → ArchivalData → SenderResult
  | _, [], data =>
      { data := data, err := none, trace := [.recv none, .metric "measurer-closed"] }
  | next, s :: rest, data =>
      let m := s.written
      match s.openErr with
      | some err =>
          { data := data, err := some err,
            trace := [.recv (some s.m), .openUniStreamSync next (some err)] }
      | none =>
          match writeJSON next m s.encodeErr s.closeErr with
          | (ops, some err) =>
              { data := data, err := some err,
                trace := [.recv (some s.m), .openUniStreamSync next none] ++ ops
                  ++ [.metric "write-json"] }
          | (ops, none) =>
              let data := { data with ServerMeasurements := data.ServerMeasurements ++ [m] }
              match SendTicksWebTransport deadline with
              | (pops, some err) =>
                  { data := data, err := some err,
                    trace := [.recv (some s.m), .openUniStreamSync next none] ++ ops
                      ++ [.close next s.close2Err] ++ pops ++ [.metric "ping-send-ticks"] }
              | (pops, none) =>
                  let r := webTransportSenderLoop deadline (next + 1) rest data
                  { r with trace := [.recv (some s.m), .openUniStreamSync next none] ++ ops
                      ++ [.close next s.close2Err] ++ pops ++ r.trace }

/-- Function `StartWebTransport` of the sender. -/
def StartWebTransport (env : WTSenderEnv) (data : ArchivalData) : SenderResult :=
  let deadline := env.now + env.MaxRuntime
  match env.openErr with
  | some err =>
      { data := data, err := some err,
        trace := [.measurerStart, .openUniStream 0 (some err), .metric "open-uni-stream",
          .measurerStop] }
  | none =>
      match env.deadlineErr with
      | some err =>
          { data := data, err := some err,
            trace := [.measurerStart, .openUniStream 0 none,
              .setWriteDeadline (.stream 0) deadline (some err),
              .metric "str-set-write-deadline", .measurerStop] }
      | none =>
          let data := { data with StartTime := env.startNow }
          let r := webTransportSenderLoop deadline 1 env.steps data
          { data := { r.data with EndTime := env.endNow }, err := r.err,
            trace := [.measurerStart, .openUniStream 0 none,
              .setWriteDeadline (.stream 0) deadline none, .setStartTime env.startNow]
              ++ r.trace ++ [.setEndTime env.endNow, .measurerStop] }

/-! ## Stream receiver (`ndt7/receiver/receiver.go`, `ndt7/measurer/measurer_webtransport.go`) -/

/-- The fields of `WebTransportMeasurer` that the sender and the receiver
share: the uuid and the `uint64` tally of received bytes. -/
structure WebTransportMeasurer where
  uuid : String
  BytesReceived : Nat
deriving DecidableEq, Repr

/-- Function `NewWebTransport`: the tally starts at the zero value. -/
def NewWebTransport (UUID : String) : WebTransportMeasurer :=
  { uuid := UUID, BytesReceived := 0 }

/-- The error `io.EOF`. -/
def EOF : Error := "EOF"

/-- One result `n, err` of `str.Read(buf[:])`. -/
structure ReadResult where
  n : Nat
  err : Option Error
deriving DecidableEq, Repr

/-- One turn of the loop of `startWebTransport`. A stream is the list of the
results of its `Read` calls; past the end of the list `Read` returns
`0, io.EOF`. -/
inductive StreamEvent where
  /-- At the head of the loop `receiverctx.Err()` is not `nil`. -/
  | ctxExpired
  /-- The call `sess.AcceptUniStream(ctx)` returned an error. -/
  | acceptError
  /-- The call `sess.AcceptUniStream(ctx)` returned a stream. -/
  | stream (reads : List ReadResult)
deriving DecidableEq, Repr

/-- What the stream receiver leaves behind: the archival record, the measurer
with its tally, and the labels of the counter incremented on return. -/
structure WTRecvResult where
  data : ArchivalData
  mr : WebTransportMeasurer
  stopped : Option (String × String)
deriving DecidableEq, Repr

/-- The inner loop `for err == nil { n, err = str.Read(buf[:]);
mr.BytesReceived += uint64(n) }`: returns the tally and `err` on exit. -/
def readStream : List ReadResult → Nat → Nat × Option Error
  | [], tally => ((tally + 0) % 2 ^ 64, some EOF)
  | r :: rest, tally =>
      let tally := (tally + r.n) % 2 ^ 64
      match r.err with
      | some err => (tally, some err)
      | none => readStream rest tally

/-- The `for receiverctx.Err() == nil` loop of `startWebTransport`. -/
def startWebTransportLoop (kind : receiverKind) :
    List StreamEvent → ArchivalData → WebTransportMeasurer → WTRecvResult
  | [], data, mr => { data := data, mr := mr, stopped := none }
  | .ctxExpired :: _, data, mr =>
      { data := data, mr := mr, stopped := some (kind.label, "receiver-context-expired") }
  | .acceptError :: _, data, mr =>
      { data := data, mr := mr, stopped := some (kind.label, "read-message-type") }
  | .stream reads :: rest, data, mr =>
      match readStream reads mr.BytesReceived with
      | (tally, some _) =>
          { data := data, mr := { mr with BytesReceived := tally },
            stopped := some (kind.label, "read-message") }
      | (tally, none) =>
          startWebTransportLoop kind rest data { mr with BytesReceived := tally }

/-- Function `startWebTransport` of the receiver. -/
def startWebTransport (kind : receiverKind) (events : List StreamEvent)
    (data : ArchivalData) (mr : WebTransportMeasurer) : WTRecvResult :=
  startWebTransportLoop kind events data mr

/-- Function `StartWebTransportDownloadReceiverAsync`. -/
def StartWebTransportDownloadReceiverAsync (events : List StreamEvent)
    (data : ArchivalData) (mr : WebTransportMeasurer) : WTRecvResult :=
  startWebTransport .downloadReceiver events data mr

/-- Function `StartWebTransportUploadReceiverAsync`. -/
def StartWebTransportUploadReceiverAsync (events : List StreamEvent)
    (data : ArchivalData) (mr : WebTransportMeasurer) : WTRecvResult :=
  startWebTransport .uploadReceiver events data mr

/-! ## Download orchestrator (`ndt7/download/download.go`) -/

/-- What a subtest leaves behind: the archival record once both tasks are
done, and the returned error. -/
structure DoResult where
  data : ArchivalData
  err : Option Error
deriving DecidableEq, Repr

/-- Function `Do` of package `download`. `senderStart` is `sender.Start` of
package `ndt7/download/sender`, which is not embedded here. The receiver is
started first and runs in the background; it is complete at the wait on
`recv.Done()`, which follows the return of the sender, so the record passes
through the sender and then through the receiver. -/
def Do (senderStart : ArchivalData → SenderResult)
    (unmarshal : String → Option Measurement) (deadlineErr : Option Error)
    (events : List RecvEvent) (data : ArchivalData) : DoResult :=
  let recv := StartDownloadReceiverAsync unmarshal deadlineErr events
  let sent := senderStart data
  let err := sent.err
  let done := recv sent.data
  { data := done.data, err := err }

/-- Function `DoWebTransport` of package `download`. `senderStartWebTransport`
is `sender.StartWebTransport` of package `ndt7/download/sender`, which is not
embedded here. -/
def DoWebTransport (senderStartWebTransport : WebTransportMeasurer → ArchivalData → SenderResult)
    (events : List StreamEvent) (data : ArchivalData) : DoResult :=
  let mr := NewWebTransport data.UUID
  let recv := fun d => StartWebTransportDownloadReceiverAsync events d mr
  let sent := senderStartWebTransport mr data
  let err := sent.err
  let done := recv sent.data
  { data := done.data, err := err }


/-! ## Reading a run: delivered messages, failures -/

/-- The message a call delivered, given the call that follows it in the trace:
a `conn.WriteJSON` that returned `nil`, or an `Encode` on a stream that
returned `nil` and is followed by a `Close` of that stream that returned `nil`
(the two calls of `writeJSON`, which then returns `nil`). -/
def Op.acked (op : Op) (next : Option Op) : Option Measurement :=
  match op, next with
  | .write .conn m none, _ => some m
  | .write (.stream id) m none, some (.close id' none) => if id = id' then some m else none
  | _, _ => none

/-- The messages whose write succeeded, in the order of the trace. -/
def delivered : List Op → List Measurement
  | [] => []
  | op :: rest => (op.acked rest.head?).toList ++ delivered rest

/-- The turns a loop goes through, out of the turns of its script: all up to
and including the first one that fails. -/
def pulled {α : Type} (ok : α → Bool) (steps : List α) : List α :=
  steps.take ((steps.takeWhile ok).length + 1)

/-- The error of the first call that fails in a turn of `Start`. -/
def SendStep.failure (s : SendStep) : Option Error :=
  match s.writeErr with
  | some err => some err
  | none => s.pingErr

/-- A turn of `Start` in which no call fails. -/
def SendStep.ok (s : SendStep) : Bool := s.failure.isNone

/-- A turn of `Start` in which the write succeeds. -/
def SendStep.writeOk (s : SendStep) : Bool := s.writeErr.isNone

/-- The error of the first call that fails in a turn of `StartWebTransport`,
in the order the calls are made: the open of the stream, then the encoding of
the message on it, then the close of the stream. -/
def WTSendStep.failure (s : WTSendStep) : Option Error :=
  match s.openErr with
  | some err => some err
  | none =>
      match s.encodeErr with
      | some err => some err
      | none => s.closeErr

/-- A turn of `StartWebTransport` in which no call fails (the result of the
last `jsonStr.Close()` is not looked at). -/
def WTSendStep.ok (s : WTSendStep) : Bool := s.failure.isNone

/-- The error of the first call that fails in a run of `Start`. -/
def firstFailure (env : SenderEnv) : Option Error :=
  match env.deadlineErr with
  | some err => some err
  | none => env.steps.findSome? SendStep.failure

/-- The error of the first call that fails in a run of `StartWebTransport`. -/
def firstFailureWT (env : WTSenderEnv) : Option Error :=
  match env.openErr with
  | some err => some err
  | none =>
      match env.deadlineErr with
      | some err => some err
      | none => env.steps.findSome? WTSendStep.failure


/-- The target of a `SetWriteDeadline` that returned `nil`. -/
def Op.deadlineTarget : Op → Option Target
  | .setWriteDeadline tgt _ none => some tgt
  | _ => none

/-- The target a measurement message is written on. -/
def Op.writeTarget : Op → Option Target
  | .write tgt _ _ => some tgt
  | _ => none

/-- The stream a successful `OpenUniStream` or `OpenUniStreamSync` returned. -/
def Op.opened : Op → Option Nat
  | .openUniStream id none => some id
  | .openUniStreamSync id none => some id
  | _ => none

/-- The stream a `Close` is called on. -/
def Op.closed : Op → Option Nat
  | .close id _ => some id
  | _ => none

/-- A receive on the channel of the measurer. -/
def Op.isRecv : Op → Bool
  | .recv _ => true
  | _ => false

/-- The payload of a timing probe the sender tried to send: a `WriteControl`
of a ping message. -/
def Op.probeData : Op → Option String
  | .writeControl messageType data _ _ => if messageType = PingMessage then some data else none
  | _ => none

/-- The payload of a timing probe that was sent: the `WriteControl` returned
`nil`. -/
def Op.probeSent : Op → Option String
  | .writeControl messageType data _ none =>
      if messageType = PingMessage then some data else none
  | _ => none

/-- A stream delivered completely: reads of the given sizes that return no
error, then end-of-stream. -/
def completeStream (sizes : List Nat) : StreamEvent :=
  .stream (sizes.map (fun n => { n := n, err := none }))

/-! ## Elapsed times of a sequence -/

/-- Modelled from the spec: the `elapsedTime` of a Measurement. The spec lists
it as a field of the record; `model.Measurement`, declared in a package that is
not embedded here, carries it inside its statistics snapshot: that of
`TCPInfo` when present, else that of `QUICInfo`, else the zero value. -/
def Measurement.elapsedTime (m : Measurement) : Int :=
  match m.TCPInfo, m.QUICInfo with
  | some tcpInfo, _ => tcpInfo.ElapsedTime
  | none, some quicInfo => quicInfo.ElapsedTime
  | none, none => 0

/-- A sequence whose elapsed times never decrease from one element to the
next. -/
def nonDecreasing (ms : List Measurement) : Prop :=
  List.Chain' (fun a b => a.elapsedTime ≤ b.elapsedTime) ms

/-- The measurements `start` accepts out of a list of events: those decoded
from the text messages that come before the first terminating event. -/
def accepted (unmarshal : String → Option Measurement) (kind : receiverKind)
    (events : List RecvEvent) : List Measurement :=
  (events.takeWhile (fun e => !e.terminates unmarshal kind)).filterMap
    (fun e => e.decoded unmarshal)

/-! ## Measurer (`ndt7/measurer/measurer_webtransport.go`) -/

/-- Type `WebTransportMockConnInfo`, a struct without fields. Its methods
return constants: `GetUUID` the string "mockUUID", `EnableBBR` a `nil` error
and `ReadInfo` zero values. -/
structure WebTransportMockConnInfo where
deriving DecidableEq, Repr

/-- Method `GetUUID` of the mock. -/
def WebTransportMockConnInfo.GetUUID (_ci : WebTransportMockConnInfo) : String × Option Error :=
  ("mockUUID", none)

/-- Method `EnableBBR` of the mock. -/
def WebTransportMockConnInfo.EnableBBR (_ci : WebTransportMockConnInfo) : Option Error := none

/-- Method `getSocketAndPossiblyEnableBBR`: it increments the `BBREnabled`
counter with the labels "false" and "cannot specify the CC yet", and returns
the mock together with a `nil` error. The first component lists the
increments. -/
def getSocketAndPossiblyEnableBBR :
    List (String × String) × WebTransportMockConnInfo × Option Error :=
  let success := "false"
  let errstr := "cannot specify the CC yet"
  ([(success, errstr)], {}, none)

/-- Method `Time.Sub` of the standard library: the difference of two instants
as a `Duration`, an `int64` count of nanoseconds, kept at the largest or
smallest `Duration` when it does not fit. -/
def timeSub (t u : Time) : Int :=
  if t - u > 2 ^ 63 - 1 then 2 ^ 63 - 1
  else if t - u < -(2 ^ 63) then -(2 ^ 63)
  else t - u

/-- Constant `time.Microsecond`, in nanoseconds. -/
def Microsecond : Int := 1000

/-- The zero value of `model.Measurement`. -/
def Measurement.zero : Measurement :=
  { ConnectionInfo := none, TCPInfo := none, QUICInfo := none }

/-- Function `measureWebTransport`: it sets `QUICInfo` to the elapsed time in
microseconds. The loop below does not call it. -/
def measureWebTransport (measurement : Measurement) (_ci : WebTransportMockConnInfo)
    (elapsed : Int) : Measurement :=
  let t := Int.tdiv elapsed Microsecond
  { measurement with QUICInfo := some { ElapsedTime := t, QUICStreamBytesReceived := 0 } }

/-- The addresses of the session, `m.sess.RemoteAddr().String()` and
`m.sess.LocalAddr().String()`. -/
structure SessionAddrs where
  RemoteAddr : String
  LocalAddr : String
deriving DecidableEq, Repr

/-- What the measurer loop leaves behind: the values it sent on `dst`, in
order, whether the deferred `close(dst)` has run, and the increments of the
`BBREnabled` counter. -/
structure LoopResult where
  emitted : List Measurement
  closed : Bool
  bbrEnabled : List (String × String)
deriving DecidableEq, Repr

/-- The `for now := range ticker.C` loop of `WebTransportMeasurer.loop`, over
the instants the ticker delivers before it closes its channel; every send on
`dst` is taken by the consumer. `measure` is the function `measure` of the
package, which is not embedded here. -/
def loopTicks (measure : Measurement → WebTransportMockConnInfo → Int → Measurement)
    (ci : WebTransportMockConnInfo) (start : Time) (connectionInfo : ConnectionInfo) :
    List Time → List Measurement
  | [] => []
  | now :: rest =>
      let measurement := Measurement.zero
      let measurement := measure measurement ci (timeSub now start)
      let measurement := { measurement with ConnectionInfo := some connectionInfo }
      measurement :: loopTicks measure ci start connectionInfo rest

/-- The body of `WebTransportMeasurer.loop` from the result of
`getSocketAndPossiblyEnableBBR` on. `start` is the reading `time.Now()`,
`tickerErr` the error of `memoryless.NewTicker` and `ticks` the instants the
ticker delivers. The deferred `close(dst)` runs on every return. -/
def WebTransportMeasurer.loopWith (m : WebTransportMeasurer)
    (measure : Measurement → WebTransportMockConnInfo → Int → Measurement)
    (sess : SessionAddrs)
    (socket : List (String × String) × WebTransportMockConnInfo × Option Error)
    (start : Time) (tickerErr : Option Error) (ticks : List Time) : LoopResult :=
  match socket with
  | (counted, _, some _) => { emitted := [], closed := true, bbrEnabled := counted }
  | (counted, ci, none) =>
      let connectionInfo : ConnectionInfo :=
        { Client := sess.RemoteAddr, Server := sess.LocalAddr, UUID := m.uuid }
      match tickerErr with
      | some _ => { emitted := [], closed := true, bbrEnabled := counted }
      | none =>
          { emitted := loopTicks measure ci start connectionInfo ticks, closed := true,
            bbrEnabled := counted }

/-- Method `WebTransportMeasurer.loop`. -/
def WebTransportMeasurer.loop (m : WebTransportMeasurer)
    (measure : Measurement → WebTransportMockConnInfo → Int → Measurement)
    (sess : SessionAddrs) (start : Time) (tickerErr : Option Error) (ticks : List Time) :
    LoopResult :=
  m.loopWith measure sess getSocketAndPossiblyEnableBBR start tickerErr ticks

/-- The turn of `StartWebTransport` for a sample of the measurer when every
call made with it succeeds and no byte has been received. -/
def turnOf (sample : Measurement) : WTSendStep :=
  { m := sample, bytesReceived := 0, openErr := none, encodeErr := none, closeErr := none,
    close2Err := none }

/-! ## Timing probe, receiving side (`ndt7/ping/ping.go`) -/

/-- The white space the JSON decoder skips around a value. -/
def isJSONSpace (c : Char) : Bool :=
  c = ' ' || c = '\t' || c = '\n' || c = '\r'

/-- A text without the JSON white space at its two ends. -/
def trimJSONSpace (cs : List Char) : List Char :=
  ((cs.dropWhile isJSONSpace).reverse.dropWhile isJSONSpace).reverse

/-- The number a run of decimal digits stands for. -/
def digitsValue (cs : List Char) : Nat :=
  cs.foldl (fun acc c => 10 * acc + (c.toNat - 48)) 0

/-- The integer part of a JSON number: a single `0`, or a digit other than `0`
followed by digits; anything else (a fraction, an exponent, a leading zero) is
not an integer the decoder stores in an `int64`. -/
def parseDigits (cs : List Char) : Option Nat :=
  match cs with
  | [] => none
  | c :: rest =>
      if (c :: rest).all Char.isDigit && (c != '0' || rest.isEmpty) then
        some (digitsValue (c :: rest))
      else none

/-- The call `json.Unmarshal([]byte(s), &prev)` of the standard library for an
`int64` variable holding `prev`: the value it stores, or `none` when it returns
an error. The literal `null` leaves the variable as it is; a number must be an
integer within the range of `int64`. -/
def jsonUnmarshalInt64 (s : String) (prev : Int) : Option Int :=
  let cs := trimJSONSpace s.data
  if cs = ['n', 'u', 'l', 'l'] then some prev
  else
    match cs with
    | [] => none
    | c :: rest =>
        if c = '-' then
          (parseDigits rest).bind (fun n => if n ≤ 2 ^ 63 then some (-(n : Int)) else none)
        else
          (parseDigits (c :: rest)).bind (fun n => if n < 2 ^ 63 then some (n : Int) else none)

/-- Reduction of an integer to the range of `int64`, as the wrapping
arithmetic of Go does. -/
def wrapInt64 (x : Int) : Int := (x + 2 ^ 63) % 2 ^ 64 - 2 ^ 63

/-- Function `ParseTicks`. `now` is the reading `int64(time.Now().UnixNano())`;
the result is the pair `d, err`. -/
def ParseTicks (now : Int) (s : String) : Int × Option Error :=
  let prev : Int := 0
  match jsonUnmarshalInt64 s prev with
  | some prev => (wrapInt64 (now - prev), none)
  | none => (0, some "json: cannot unmarshal into Go value of type int64")

/-! ## Listener (`ndt7/listener/listener.go`) -/

/-- Function `ListenAndServeTLSAsync`: it listens synchronously and returns the
error of `net.Listen`, then serves in the background. `listenErr` is the error
of `net.Listen`. -/
def ListenAndServeTLSAsync (listenErr : Option Error) : Option Error :=
  match listenErr with
  | some err => some err
  | none => none

/-- Function `ListenAndServeH3Async`: it starts `server.ListenAndServe()` in
the background and returns `nil`. `listenErr` is the error with which
`server.ListenAndServe()` ends when it cannot establish the listening socket;
nothing reads it. -/
def ListenAndServeH3Async (_listenErr : Option Error) : Option Error :=
  none

/-! ## Handler (`ndt7/handler/handler.go`) -/

/-- Whether a text begins with the given characters. -/
def beginsWith : List Char → List Char → Bool
  | [], _ => true
  | _ :: _, [] => false
  | p :: ps, c :: cs => p == c && beginsWith ps cs

/-- The call `excludeKeyRe.MatchString(name)` for the expression `^server_`. -/
def excludeKeyRe (name : String) : Bool :=
  beginsWith "server_".data name.data

/-- Function `appendClientMetadata`. The request parameters, a Go map, are
given as the list of their entries in the order the `range` loop visits them.
The result is `none` when `values[0]` is out of range. -/
def appendClientMetadata :
    ArchivalData → List (String × List String) → Option ArchivalData
  | data, [] => some data
  | data, (name, values) :: rest =>
      if excludeKeyRe name then appendClientMetadata data rest
      else
        match values with
        | [] => none
        | value :: _ =>
            appendClientMetadata
              { data with ClientMetadata :=
                  data.ClientMetadata ++ [{ Name := name, Value := value }] }
              rest

/-- The arithmetic of `float64` that the rates use: the conversion of an
`int64`, the product and the quotient. -/
structure Float64Ops (F : Type) where
  ofInt64 : Int → F
  mul : F → F → F
  div : F → F → F

/-- Exact arithmetic on the rationals, in place of `float64`. -/
def exactOps : Float64Ops ℚ :=
  { ofInt64 := fun x => (x : ℚ), mul := fun a b => a * b, div := fun a b => a / b }

/-- Function `upRate`. -/
def upRate {F : Type} (ops : Float64Ops F) (m : List Measurement) : F :=
  let mbps := ops.ofInt64 0
  if 0 < m.length then
    match m[m.length - 1]? with
    | some last =>
        match last.TCPInfo with
        | some tcpInfo =>
            ops.div (ops.mul (ops.ofInt64 8) (ops.ofInt64 tcpInfo.BytesReceived))
              (ops.ofInt64 tcpInfo.ElapsedTime)
        | none => mbps
    | none => mbps
  else mbps

/-- Function `downRate`. -/
def downRate {F : Type} (ops : Float64Ops F) (m : List Measurement) : F :=
  let mbps := ops.ofInt64 0
  if 0 < m.length then
    match m[m.length - 1]? with
    | some last =>
        match last.TCPInfo with
        | some tcpInfo =>
            ops.div (ops.mul (ops.ofInt64 8) (ops.ofInt64 tcpInfo.BytesAcked))
              (ops.ofInt64 tcpInfo.ElapsedTime)
        | none => mbps
    | none => mbps
  else mbps

/-! ## Sample inputs -/

/-- A decoder that rejects the empty payload and otherwise yields a
measurement whose elapsed time is the length of the payload. -/
def sampleUnmarshal (mdata : String) : Option Measurement :=
  if mdata = "" then none
  else some { ConnectionInfo := none, TCPInfo := none,
              QUICInfo := some { ElapsedTime := mdata.length, QUICStreamBytesReceived := 0 } }

/-- The record of a fresh session, as `getData` builds it. -/
def freshData : ArchivalData :=
  { UUID := "uuid", StartTime := 0, EndTime := 0, ServerMeasurements := [],
    ClientMeasurements := [], ClientMetadata := [], ServerMetadata := [] }

/-- A sample with no statistics attached. -/
def bareMeasurement : Measurement :=
  { ConnectionInfo := none, TCPInfo := none, QUICInfo := none }

/-- A sample whose only content is an elapsed time. -/
def sampleAt (t : Int) : Measurement :=
  { ConnectionInfo := none, TCPInfo := none,
    QUICInfo := some { ElapsedTime := t, QUICStreamBytesReceived := 0 } }

/-- A turn of `Start` in which the write and the probe succeed. -/
def goodStep (t : Int) : SendStep :=
  { m := sampleAt t, writeErr := none, now := t, pingErr := none }

/-- A run of `Start` whose deadline setup succeeds, with the given turns. -/
def sampleEnv (steps : List SendStep) : SenderEnv :=
  { MaxRuntime := 15000000000, now := 100, deadlineErr := none, startNow := 101,
    endNow := 900, steps := steps }

/-- A turn of `StartWebTransport` in which every call succeeds. -/
def goodWTStep (t : Int) : WTSendStep :=
  { m := sampleAt t, bytesReceived := 0, openErr := none, encodeErr := none,
    closeErr := none, close2Err := none }

/-- A run of `StartWebTransport` whose setup succeeds, with the given turns. -/
def sampleWTEnv (steps : List WTSendStep) : WTSenderEnv :=
  { MaxRuntime := 15000000000, now := 100, openErr := none, deadlineErr := none,
    startNow := 101, endNow := 900, steps := steps }

/-- Request parameters with a multi-valued key and a key to exclude. -/
def sampleValues : List (String × List String) :=
  [("client_name", ["ndt7-js", "other"]), ("server_secret", ["s3"]), ("os", ["linux"])]

/-- A server measurement with 5000000 bytes received and 2500000 bytes acked
after 2 seconds. -/
def sampleTCPMeasurement : Measurement :=
  { ConnectionInfo := none,
    TCPInfo := some { BytesReceived := 5000000, BytesAcked := 2500000, ElapsedTime := 2000000 },
    QUICInfo := none }

/-! ## Receiver: the loop over a list of events -/

/-- Running the loop over `pre ++ post`: if it stops within `pre` the rest is
never looked at, otherwise it goes on with `post` from the record left by
`pre`. -/
theorem startLoop_append (unmarshal : String → Option Measurement) (kind : receiverKind)
    (pre post : List RecvEvent) (data : ArchivalData) :
    startLoop unmarshal kind (pre ++ post) data =
      match (startLoop unmarshal kind pre data).stopped with
      | some _ => startLoop unmarshal kind pre data
      | none => startLoop unmarshal kind post (startLoop unmarshal kind pre data).data := by
  induction pre generalizing data with
  | nil => simp [startLoop]
  | cons e pre ih =>
    cases e with
    | ctxExpired => simp [startLoop]
    | readError => simp [startLoop]
    | message mtype body =>
      simp only [List.cons_append, startLoop]
      split
      · cases kind <;> simp [ih]
      · cases body with
        | none => simp
        | some mdata => cases h : unmarshal mdata <;> simp [h, ih]

/-- The upload loop gives the same result on a list and on the list without
its non-text messages. -/
theorem startLoop_upload_filter (unmarshal : String → Option Measurement)
    (events : List RecvEvent) (data : ArchivalData) :
    startLoop unmarshal .uploadReceiver events data =
      startLoop unmarshal .uploadReceiver (events.filter (fun e => !e.isNonText)) data := by
  induction events generalizing data with
  | nil => rfl
  | cons e rest ih =>
    cases e with
    | ctxExpired => simp [startLoop, RecvEvent.isNonText]
    | readError => simp [startLoop, RecvEvent.isNonText]
    | message mtype body =>
      by_cases hm : mtype = TextMessage
      · subst hm
        cases body with
        | none => simp [startLoop, RecvEvent.isNonText]
        | some mdata =>
          cases h : unmarshal mdata <;> simp [startLoop, RecvEvent.isNonText, h, ih]
      · simp [startLoop, RecvEvent.isNonText, hm, ih]

/-- The client sequence the loop leaves: the initial one, then the decoded
text messages that come before the first terminating event. -/
theorem startLoop_clientMeasurements (unmarshal : String → Option Measurement)
    (kind : receiverKind) (events : List RecvEvent) (data : ArchivalData) :
    (startLoop unmarshal kind events data).data.ClientMeasurements =
      data.ClientMeasurements ++
        ((events.takeWhile (fun e => !e.terminates unmarshal kind)).filterMap
          (fun e => e.decoded unmarshal)) := by
  induction events generalizing data with
  | nil => simp [startLoop]
  | cons e rest ih =>
    cases e with
    | ctxExpired => simp [startLoop, RecvEvent.terminates]
    | readError => simp [startLoop, RecvEvent.terminates]
    | message mtype body =>
      by_cases hm : mtype = TextMessage
      · subst hm
        cases body with
        | none => simp [startLoop, RecvEvent.terminates]
        | some mdata =>
          cases h : unmarshal mdata <;>
            simp [startLoop, RecvEvent.terminates, RecvEvent.decoded, h, ih]
      · have hd : RecvEvent.decoded unmarshal (.message mtype body) = none := by
          cases body <;> simp [RecvEvent.decoded, hm]
        cases kind
        · simp [startLoop, RecvEvent.terminates, hm]
        · rw [List.takeWhile_cons_of_pos (by simp [RecvEvent.terminates, hm]),
            List.filterMap_cons_none hd]
          simp [startLoop, hm, ih]

/-! ## Receiver: claims -/

/-- C1. Frame-based receiver on a list of inbound events. A download receiver
stops at a non-text message: what follows the message changes nothing, the
receiver has returned, and the record is the one left by the events before it.
An upload receiver gives the same result on the list and on the list with all
non-text messages removed, whatever their bodies are. -/
theorem C1_nonText_download_stops_upload_continues
    (unmarshal : String → Option Measurement) (deadlineErr : Option Error)
    (data : ArchivalData) :
    (∀ (pre post : List RecvEvent) (mtype : Int) (body : Option String),
      mtype ≠ TextMessage →
        start unmarshal deadlineErr .downloadReceiver (pre ++ .message mtype body :: post) data
            = start unmarshal deadlineErr .downloadReceiver (pre ++ [.message mtype body]) data
          ∧ (start unmarshal deadlineErr .downloadReceiver
              (pre ++ [.message mtype body]) data).stopped ≠ none
          ∧ (start unmarshal deadlineErr .downloadReceiver
              (pre ++ [.message mtype body]) data).data
            = (start unmarshal deadlineErr .downloadReceiver pre data).data)
    ∧ (∀ events : List RecvEvent,
        start unmarshal deadlineErr .uploadReceiver events data
          = start unmarshal deadlineErr .uploadReceiver
              (events.filter (fun e => !e.isNonText)) data) := by
  refine ⟨?_, ?_⟩
  · intro pre post mtype body hm
    cases deadlineErr with
    | some err => simp [start]
    | none =>
      simp only [start]
      rw [startLoop_append, startLoop_append unmarshal _ pre [_]]
      cases hs : (startLoop unmarshal .downloadReceiver pre data).stopped with
      | some l => simp [hs]
      | none => simp [hs, startLoop, hm]
  · intro events
    cases deadlineErr with
    | some err => simp [start]
    | none => simpa [start] using startLoop_upload_filter unmarshal events data

/-- Witness of C1: a text message, a binary message, a text message. -/
theorem C1_nonText_download_stops_upload_continues_witness :
    BinaryMessage ≠ TextMessage ∧
    start sampleUnmarshal none .downloadReceiver
        ([.message TextMessage (some "a")] ++
          .message BinaryMessage none :: [.message TextMessage (some "b")]) freshData
      = start sampleUnmarshal none .downloadReceiver
        ([.message TextMessage (some "a")] ++ [.message BinaryMessage none]) freshData :=
  ⟨by decide,
    ((C1_nonText_download_stops_upload_continues sampleUnmarshal none freshData).1
      [.message TextMessage (some "a")] [.message TextMessage (some "b")]
      BinaryMessage none (by decide)).1⟩

/-- C2. For every record and every list of inbound events, the client sequence
that `start` leaves is the initial one followed by the measurements decoded
from the text messages that come before the first terminating event, in
arrival order (nothing is received when the read deadline cannot be set). In
particular three decodable text messages followed by a read error append
exactly three measurements. -/
theorem C2_client_sequence_until_first_terminating_event
    (unmarshal : String → Option Measurement) (deadlineErr : Option Error)
    (kind : receiverKind) (events : List RecvEvent) (data : ArchivalData) :
    (start unmarshal deadlineErr kind events data).data.ClientMeasurements =
        data.ClientMeasurements ++
          (match deadlineErr with
           | some _ => []
           | none => (events.takeWhile (fun e => !e.terminates unmarshal kind)).filterMap
                       (fun e => e.decoded unmarshal))
    ∧ (∀ (p1 p2 p3 : String) (m1 m2 m3 : Measurement) (rest : List RecvEvent),
        unmarshal p1 = some m1 → unmarshal p2 = some m2 → unmarshal p3 = some m3 →
        (start unmarshal none kind
            (.message TextMessage (some p1) :: .message TextMessage (some p2) ::
              .message TextMessage (some p3) :: .readError :: rest) data).data.ClientMeasurements
          = data.ClientMeasurements ++ [m1, m2, m3]) := by
  refine ⟨?_, ?_⟩
  · cases deadlineErr with
    | some err => simp [start]
    | none => simpa [start] using startLoop_clientMeasurements unmarshal kind events data
  · intro p1 p2 p3 m1 m2 m3 rest h1 h2 h3
    simp [start, startLoop, h1, h2, h3]

/-- Witness of C2: three decodable text messages, a read error, and one more
text message that is never read. -/
theorem C2_client_sequence_until_first_terminating_event_witness :
    (start sampleUnmarshal none .downloadReceiver
        (.message TextMessage (some "a") :: .message TextMessage (some "bb") ::
          .message TextMessage (some "ccc") :: .readError ::
          [.message TextMessage (some "dddd")]) freshData).data.ClientMeasurements.length = 3 := by
  have h := (C2_client_sequence_until_first_terminating_event sampleUnmarshal none
    .downloadReceiver [] freshData).2 "a" "bb" "ccc" _ _ _
    [.message TextMessage (some "dddd")] rfl rfl rfl
  rw [h]
  rfl

/-! ## Sender: lemmas -/

theorem pulled_nil {α : Type} (ok : α → Bool) : pulled ok ([] : List α) = [] := rfl

theorem pulled_cons {α : Type} (ok : α → Bool) (s : α) (rest : List α) :
    pulled ok (s :: rest) = if ok s then s :: pulled ok rest else [s] := by
  by_cases h : ok s <;> simp [pulled, List.takeWhile_cons, h]

theorem acked_of_next_not_close (op : Op) (next : Option Op)
    (h : ∀ id, next ≠ some (.close id none)) : op.acked next = op.acked none := by
  unfold Op.acked
  split <;> simp_all

theorem delivered_cons (op : Op) (rest : List Op) :
    delivered (op :: rest) = (op.acked rest.head?).toList ++ delivered rest := rfl

theorem delivered_append (xs ys : List Op) (h : ∀ id, ys.head? ≠ some (.close id none)) :
    delivered (xs ++ ys) = delivered xs ++ delivered ys := by
  induction xs with
  | nil => simp [delivered]
  | cons op xs ih =>
    cases xs with
    | nil =>
      rw [List.cons_append, List.nil_append, delivered_cons, delivered_cons,
        acked_of_next_not_close op _ h]
      simp [delivered]
    | cons op2 xs =>
      rw [List.cons_append, delivered_cons, ih, delivered_cons op (op2 :: xs)]
      simp

/-- The record the loop of `Start` leaves: only the server sequence changes,
by the samples of the turns gone through whose write succeeded. -/
theorem senderLoop_data (deadline : Time) (steps : List SendStep) (data : ArchivalData) :
    (senderLoop deadline steps data).data =
      { data with ServerMeasurements := data.ServerMeasurements ++
          ((pulled SendStep.ok steps).filter SendStep.writeOk).map (fun s => s.m) } := by
  induction steps generalizing data with
  | nil => simp [senderLoop, pulled_nil]
  | cons s rest ih =>
    obtain ⟨m, writeErr, now, pingErr⟩ := s
    cases writeErr with
    | some e => simp [senderLoop, pulled_cons, SendStep.ok, SendStep.failure, SendStep.writeOk]
    | none =>
      cases pingErr with
      | some e =>
        simp [senderLoop, SendTicks, jsonMarshalInt64, pulled_cons, SendStep.ok,
          SendStep.failure, SendStep.writeOk]
      | none =>
        simp [senderLoop, SendTicks, jsonMarshalInt64, pulled_cons, SendStep.ok,
          SendStep.failure, SendStep.writeOk, ih]

/-- The error the loop of `Start` returns: that of the first failing call. -/
theorem senderLoop_err (deadline : Time) (steps : List SendStep) (data : ArchivalData) :
    (senderLoop deadline steps data).err = steps.findSome? SendStep.failure := by
  induction steps generalizing data with
  | nil => simp [senderLoop]
  | cons s rest ih =>
    obtain ⟨m, writeErr, now, pingErr⟩ := s
    cases writeErr with
    | some e => simp [senderLoop, SendStep.failure]
    | none =>
      cases pingErr with
      | some e => simp [senderLoop, SendTicks, jsonMarshalInt64, SendStep.failure]
      | none => simp [senderLoop, SendTicks, jsonMarshalInt64, SendStep.failure, ih]

/-- The messages delivered by the loop of `Start`. -/
theorem senderLoop_delivered (deadline : Time) (steps : List SendStep) (data : ArchivalData) :
    delivered (senderLoop deadline steps data).trace =
      ((pulled SendStep.ok steps).filter SendStep.writeOk).map (fun s => s.m) := by
  induction steps generalizing data with
  | nil => simp [senderLoop, pulled_nil, delivered, Op.acked]
  | cons s rest ih =>
    obtain ⟨m, writeErr, now, pingErr⟩ := s
    cases writeErr with
    | some e =>
      simp [senderLoop, pulled_cons, SendStep.ok, SendStep.failure, SendStep.writeOk,
        delivered, Op.acked]
    | none =>
      cases pingErr with
      | some e =>
        simp [senderLoop, SendTicks, jsonMarshalInt64, pulled_cons, SendStep.ok,
          SendStep.failure, SendStep.writeOk, delivered, Op.acked]
      | none =>
        simp [senderLoop, SendTicks, jsonMarshalInt64, pulled_cons, SendStep.ok,
          SendStep.failure, SendStep.writeOk, delivered, Op.acked, ih]

/-- The turns that follow the first failing one have no effect on the loop of
`Start`. -/
theorem senderLoop_pulled (deadline : Time) (steps : List SendStep) (data : ArchivalData) :
    senderLoop deadline (pulled SendStep.ok steps) data = senderLoop deadline steps data := by
  induction steps generalizing data with
  | nil => simp [pulled_nil]
  | cons s rest ih =>
    obtain ⟨m, writeErr, now, pingErr⟩ := s
    cases writeErr with
    | some e => simp [senderLoop, pulled_cons, SendStep.ok, SendStep.failure]
    | none =>
      cases pingErr with
      | some e =>
        simp [senderLoop, SendTicks, jsonMarshalInt64, pulled_cons, SendStep.ok,
          SendStep.failure]
      | none =>
        have h := ih { data with ServerMeasurements := data.ServerMeasurements ++ [m] }
        rw [pulled_cons]
        simp only [SendStep.ok, SendStep.failure, Option.isNone_none, if_true, senderLoop,
          SendTicks, jsonMarshalInt64]
        rw [h]

/-- The record the loop of `StartWebTransport` leaves: only the server sequence
changes, by the written values of the turns gone through that did not fail. -/
theorem webTransportSenderLoop_data (deadline : Time) (next : Nat) (steps : List WTSendStep)
    (data : ArchivalData) :
    (webTransportSenderLoop deadline next steps data).data =
      { data with ServerMeasurements := data.ServerMeasurements ++
          ((pulled WTSendStep.ok steps).filter WTSendStep.ok).map (fun s => s.written) } := by
  induction steps generalizing data next with
  | nil => simp [webTransportSenderLoop, pulled_nil]
  | cons s rest ih =>
    rw [pulled_cons]
    by_cases hok : s.ok = true
    · have hf := hok
      simp only [WTSendStep.ok, WTSendStep.failure, writeJSON] at hf
      cases ho : s.openErr <;> cases he : s.encodeErr <;> cases hc : s.closeErr <;>
        simp [ho, he, hc] at hf
      simp [webTransportSenderLoop, writeJSON, SendTicksWebTransport, ho, he, hc, hok, ih]
    · have hf := hok
      simp only [WTSendStep.ok, WTSendStep.failure, writeJSON] at hf
      cases ho : s.openErr <;> cases he : s.encodeErr <;> cases hc : s.closeErr <;>
        simp [ho, he, hc] at hf <;>
        simp [webTransportSenderLoop, writeJSON, ho, he, hc, hok]

/-- The error the loop of `StartWebTransport` returns: that of the first
failing call. -/
theorem webTransportSenderLoop_err (deadline : Time) (next : Nat) (steps : List WTSendStep)
    (data : ArchivalData) :
    (webTransportSenderLoop deadline next steps data).err
      = steps.findSome? WTSendStep.failure := by
  induction steps generalizing data next with
  | nil => simp [webTransportSenderLoop]
  | cons s rest ih =>
    cases ho : s.openErr <;> cases he : s.encodeErr <;> cases hc : s.closeErr <;>
      simp [webTransportSenderLoop, writeJSON, SendTicksWebTransport, WTSendStep.failure,
        ho, he, hc, ih]

/-- The messages delivered by the loop of `StartWebTransport`. -/
theorem webTransportSenderLoop_delivered (deadline : Time) (next : Nat)
    (steps : List WTSendStep) (data : ArchivalData) :
    delivered (webTransportSenderLoop deadline next steps data).trace =
      ((pulled WTSendStep.ok steps).filter WTSendStep.ok).map (fun s => s.written) := by
  induction steps generalizing data next with
  | nil => simp [webTransportSenderLoop, pulled_nil, delivered, Op.acked]
  | cons s rest ih =>
    rw [pulled_cons]
    cases ho : s.openErr <;> cases he : s.encodeErr <;> cases hc : s.closeErr <;>
      simp [webTransportSenderLoop, writeJSON, SendTicksWebTransport, WTSendStep.ok,
        WTSendStep.failure, delivered, Op.acked, ho, he, hc, ih]

/-- The turns that follow the first failing one have no effect on the loop of
`StartWebTransport`. -/
theorem webTransportSenderLoop_pulled (deadline : Time) (next : Nat)
    (steps : List WTSendStep) (data : ArchivalData) :
    webTransportSenderLoop deadline next (pulled WTSendStep.ok steps) data
      = webTransportSenderLoop deadline next steps data := by
  induction steps generalizing data next with
  | nil => simp [pulled_nil]
  | cons s rest ih =>
    rw [pulled_cons]
    cases ho : s.openErr <;> cases he : s.encodeErr <;> cases hc : s.closeErr <;>
      simp only [WTSendStep.ok, WTSendStep.failure, writeJSON, ho, he, hc, Option.isNone_none,
        Option.isNone_some, if_true, if_false, webTransportSenderLoop, SendTicksWebTransport,
        Bool.false_eq_true]
    rw [ih]

theorem pulled_split {α : Type} (ok : α → Bool) (pre post : List α) (s : α)
    (hpre : ∀ x ∈ pre, ok x = true) (hs : ok s = false) :
    pulled ok (pre ++ s :: post) = pre ++ [s] := by
  induction pre with
  | nil => simp [pulled_cons, hs]
  | cons x pre ih =>
    have hx : ok x = true := hpre x (by simp)
    rw [List.cons_append, pulled_cons, if_pos hx, ih (fun y hy => hpre y (by simp [hy]))]
    rfl

theorem findSome_failure_split {α : Type} (failure : α → Option Error) (pre post : List α)
    (s : α) (hpre : ∀ x ∈ pre, (failure x).isNone = true) :
    (pre ++ s :: post).findSome? failure = (failure s).or (post.findSome? failure) := by
  induction pre with
  | nil => cases h : failure s <;> simp [List.findSome?, h]
  | cons x pre ih =>
    have hx : (failure x).isNone = true := hpre x (by simp)
    have hx2 : failure x = none := by simpa using hx
    rw [List.cons_append, List.findSome?_cons, hx2]
    exact ih (fun y hy => hpre y (by simp [hy]))

theorem findSome_failure_ne_none {α : Type} (failure : α → Option Error) (steps : List α) :
    steps.findSome? failure ≠ none ↔
      ∃ s ∈ pulled (fun x => (failure x).isNone) steps, failure s ≠ none := by
  induction steps with
  | nil => simp [pulled_nil]
  | cons x rest ih =>
    rw [pulled_cons]
    cases h : failure x with
    | some e => simp [List.findSome?, h]
    | none => simp [List.findSome?, h, ih]

/-- The messages delivered in a run of `Start`. -/
theorem Start_delivered (env : SenderEnv) (data : ArchivalData) :
    delivered (Start env data).trace
      = (match env.deadlineErr with
         | some _ => []
         | none => ((pulled SendStep.ok env.steps).filter SendStep.writeOk).map
                     (fun s => s.m)) := by
  cases hd : env.deadlineErr with
  | some e => simp [Start, hd, delivered, Op.acked]
  | none =>
    simp only [Start, hd, List.cons_append, List.nil_append, delivered_cons]
    rw [delivered_append _ _ (by simp), senderLoop_delivered]
    simp [Op.acked, delivered]

/-- The messages delivered in a run of `StartWebTransport`. -/
theorem StartWebTransport_delivered (wenv : WTSenderEnv) (data : ArchivalData) :
    delivered (StartWebTransport wenv data).trace
      = (match wenv.openErr, wenv.deadlineErr with
         | none, none => ((pulled WTSendStep.ok wenv.steps).filter WTSendStep.ok).map
                           (fun s => s.written)
         | _, _ => []) := by
  cases ho : wenv.openErr with
  | some e => simp [StartWebTransport, ho, delivered, Op.acked]
  | none =>
    cases hd : wenv.deadlineErr with
    | some e => simp [StartWebTransport, ho, hd, delivered, Op.acked]
    | none =>
      simp only [StartWebTransport, ho, hd, List.cons_append, List.nil_append, delivered_cons]
      rw [delivered_append _ _ (by simp), webTransportSenderLoop_delivered]
      simp [Op.acked, delivered]

/-- The loop of `StartWebTransport` never calls `closer.StartClosing`. -/
theorem webTransportSenderLoop_no_startClosing (deadline : Time) (next : Nat)
    (steps : List WTSendStep) (data : ArchivalData) :
    Op.startClosing ∉ (webTransportSenderLoop deadline next steps data).trace := by
  induction steps generalizing data next with
  | nil => simp [webTransportSenderLoop]
  | cons s rest ih =>
    cases ho : s.openErr <;> cases he : s.encodeErr <;> cases hc : s.closeErr <;>
      simp [webTransportSenderLoop, writeJSON, SendTicksWebTransport, ho, he, hc, ih]

/-- The loop of `StartWebTransport` sets no write deadline. -/
theorem webTransportSenderLoop_no_deadline (deadline : Time) (next : Nat)
    (steps : List WTSendStep) (data : ArchivalData) :
    (webTransportSenderLoop deadline next steps data).trace.filterMap Op.deadlineTarget = [] := by
  induction steps generalizing data next with
  | nil => simp [webTransportSenderLoop, Op.deadlineTarget]
  | cons s rest ih =>
    cases ho : s.openErr <;> cases he : s.encodeErr <;> cases hc : s.closeErr <;>
      simp [webTransportSenderLoop, writeJSON, SendTicksWebTransport, Op.deadlineTarget,
        ho, he, hc, ih]

/-- The loop of `StartWebTransport` writes on streams numbered from `next`. -/
theorem webTransportSenderLoop_writeTargets (deadline : Time) (next : Nat)
    (steps : List WTSendStep) (data : ArchivalData) :
    ∀ tgt ∈ (webTransportSenderLoop deadline next steps data).trace.filterMap Op.writeTarget,
      ∃ id, next ≤ id ∧ tgt = .stream id := by
  induction steps generalizing data next with
  | nil => simp [webTransportSenderLoop, Op.writeTarget]
  | cons s rest ih =>
    have ih' : ∀ d, ∀ tgt ∈ (webTransportSenderLoop deadline (next + 1) rest
        d).trace.filterMap Op.writeTarget, ∃ id, next ≤ id ∧ tgt = .stream id := by
      intro d tgt h
      obtain ⟨id, hid, rfl⟩ := ih (next + 1) d tgt h
      exact ⟨id, by omega, rfl⟩
    intro tgt
    cases ho : s.openErr <;> cases he : s.encodeErr <;> cases hc : s.closeErr <;>
      simp only [webTransportSenderLoop, writeJSON, SendTicksWebTransport, ho, he, hc,
        List.cons_append, List.nil_append, List.append_assoc, List.filterMap_cons,
        List.filterMap_nil, Op.writeTarget, List.mem_cons, List.not_mem_nil, or_false,
        false_imp_iff] <;>
      first
        | trivial
        | (intro h; exact ⟨next, le_refl _, h⟩)
        | (rintro (h | h)
           · exact ⟨next, le_refl _, h⟩
           · exact ih' _ tgt h)

/-- The loop of `StartWebTransport` closes streams numbered from `next`. -/
theorem webTransportSenderLoop_closed (deadline : Time) (next : Nat)
    (steps : List WTSendStep) (data : ArchivalData) :
    ∀ id ∈ (webTransportSenderLoop deadline next steps data).trace.filterMap Op.closed,
      next ≤ id := by
  induction steps generalizing data next with
  | nil => simp [webTransportSenderLoop, Op.closed]
  | cons s rest ih =>
    have ih' : ∀ d, ∀ id ∈ (webTransportSenderLoop deadline (next + 1) rest
        d).trace.filterMap Op.closed, next ≤ id := by
      intro d id h
      have := ih (next + 1) d id h
      omega
    intro id
    cases ho : s.openErr <;> cases he : s.encodeErr <;> cases hc : s.closeErr <;>
      simp only [webTransportSenderLoop, writeJSON, SendTicksWebTransport, ho, he, hc,
        List.cons_append, List.nil_append, List.append_assoc, List.filterMap_cons,
        List.filterMap_nil, Op.closed, List.mem_cons, List.not_mem_nil, or_false,
        false_imp_iff] <;>
      first
        | trivial
        | (intro h; omega)
        | (rintro (h | h | h)
           · omega
           · omega
           · exact ih' _ id h)

/-- In the loop of `StartWebTransport` every stream opened is written on. -/
theorem webTransportSenderLoop_opened (deadline : Time) (next : Nat)
    (steps : List WTSendStep) (data : ArchivalData) :
    ((webTransportSenderLoop deadline next steps data).trace.filterMap Op.opened).length
      = ((webTransportSenderLoop deadline next steps data).trace.filterMap
          Op.writeTarget).length := by
  induction steps generalizing data next with
  | nil => simp [webTransportSenderLoop, Op.opened, Op.writeTarget]
  | cons s rest ih =>
    cases ho : s.openErr <;> cases he : s.encodeErr <;> cases hc : s.closeErr <;>
      simp [webTransportSenderLoop, writeJSON, SendTicksWebTransport, Op.opened,
        Op.writeTarget, ho, he, hc, ih]

/-- In the loop of `StartWebTransport` a stream is closed once for each write
and once more for each write that succeeded. -/
theorem webTransportSenderLoop_close_count (deadline : Time) (next : Nat)
    (steps : List WTSendStep) (data : ArchivalData) :
    ((webTransportSenderLoop deadline next steps data).trace.filterMap Op.closed).length
      = ((webTransportSenderLoop deadline next steps data).trace.filterMap
          Op.writeTarget).length
        + (((pulled WTSendStep.ok steps).filter WTSendStep.ok).map
            (fun s => s.written)).length := by
  induction steps generalizing data next with
  | nil => simp [webTransportSenderLoop, Op.closed, Op.writeTarget, pulled_nil]
  | cons s rest ih =>
    rw [pulled_cons]
    cases ho : s.openErr <;> cases he : s.encodeErr <;> cases hc : s.closeErr <;>
      simp [webTransportSenderLoop, writeJSON, SendTicksWebTransport, Op.closed,
        Op.writeTarget, WTSendStep.ok, WTSendStep.failure, ho, he, hc, ih]
    omega

/-! ## Sender: claims -/

/-- C3. For every run of `Start` and of `StartWebTransport`, the server
sequence on return is the initial one followed by the messages the trace shows
as delivered (a write that returned `nil`; on a stream, `writeJSON` returning
`nil`), each being the very value passed to the write; these are, in the order
the samples were received from the measurer, the samples of the turns gone
through whose write succeeded. -/
theorem C3_server_sequence_is_the_delivered_messages
    (env : SenderEnv) (wenv : WTSenderEnv) (data : ArchivalData) :
    ((Start env data).data.ServerMeasurements
        = data.ServerMeasurements ++ delivered (Start env data).trace
      ∧ delivered (Start env data).trace
        = (match env.deadlineErr with
           | some _ => []
           | none => ((pulled SendStep.ok env.steps).filter SendStep.writeOk).map
                       (fun s => s.m)))
    ∧ ((StartWebTransport wenv data).data.ServerMeasurements
        = data.ServerMeasurements ++ delivered (StartWebTransport wenv data).trace
      ∧ delivered (StartWebTransport wenv data).trace
        = (match wenv.openErr, wenv.deadlineErr with
           | none, none => ((pulled WTSendStep.ok wenv.steps).filter WTSendStep.ok).map
                             (fun s => s.written)
           | _, _ => [])) := by
  have hStart := Start_delivered env data
  have hWT := StartWebTransport_delivered wenv data
  refine ⟨⟨?_, hStart⟩, ⟨?_, hWT⟩⟩
  · rw [hStart]
    cases hd : env.deadlineErr with
    | some e => simp [Start, hd]
    | none => simp [Start, hd, senderLoop_data]
  · rw [hWT]
    cases ho : wenv.openErr with
    | some e => simp [StartWebTransport, ho]
    | none =>
      cases hd : wenv.deadlineErr with
      | some e => simp [StartWebTransport, ho, hd]
      | none => simp [StartWebTransport, ho, hd, webTransportSenderLoop_data]

/-- C4. For every run of `Start` and of `StartWebTransport`: the returned error
is that of the first failing call (deadline setup, stream open, write, probe),
so it is not `nil` exactly when one of the calls made failed; when the setup
fails the record is left as it was; when a turn of the loop fails after turns
that succeeded, the run is the same as if the measurer had emitted nothing
after that turn (no later sample is written or appended), and the samples
appended before are all in the server sequence on return. -/
theorem C4_sender_returns_the_first_failure
    (env : SenderEnv) (wenv : WTSenderEnv) (data : ArchivalData) :
    ((Start env data).err = firstFailure env
      ∧ ((Start env data).err ≠ none ↔
          (env.deadlineErr ≠ none ∨
            ∃ s ∈ pulled SendStep.ok env.steps, s.failure ≠ none))
      ∧ (env.deadlineErr ≠ none → (Start env data).data = data)
      ∧ (∀ (pre post : List SendStep) (s : SendStep),
          env.deadlineErr = none → env.steps = pre ++ s :: post →
          (∀ x ∈ pre, x.ok = true) → s.ok = false →
            (Start env data).err = s.failure
            ∧ Start env data = Start { env with steps := pre ++ [s] } data
            ∧ (Start env data).data.ServerMeasurements
                = data.ServerMeasurements ++ pre.map (fun x => x.m)
                    ++ (if s.writeOk then [s.m] else [])))
    ∧ ((StartWebTransport wenv data).err = firstFailureWT wenv
      ∧ ((StartWebTransport wenv data).err ≠ none ↔
          (wenv.openErr ≠ none ∨ wenv.deadlineErr ≠ none ∨
            ∃ s ∈ pulled WTSendStep.ok wenv.steps, s.failure ≠ none))
      ∧ (wenv.openErr ≠ none ∨ wenv.deadlineErr ≠ none →
          (StartWebTransport wenv data).data = data)
      ∧ (∀ (pre post : List WTSendStep) (s : WTSendStep),
          wenv.openErr = none → wenv.deadlineErr = none → wenv.steps = pre ++ s :: post →
          (∀ x ∈ pre, x.ok = true) → s.ok = false →
            (StartWebTransport wenv data).err = s.failure
            ∧ StartWebTransport wenv data
                = StartWebTransport { wenv with steps := pre ++ [s] } data
            ∧ (StartWebTransport wenv data).data.ServerMeasurements
                = data.ServerMeasurements ++ pre.map (fun x => x.written))) := by
  have hokS : SendStep.ok = fun x => (SendStep.failure x).isNone := rfl
  have hokW : WTSendStep.ok = fun x => (WTSendStep.failure x).isNone := rfl
  refine ⟨⟨?_, ?_, ?_, ?_⟩, ⟨?_, ?_, ?_, ?_⟩⟩
  · cases hd : env.deadlineErr with
    | some e => simp [Start, firstFailure, hd]
    | none => simp [Start, firstFailure, hd, senderLoop_err]
  · cases hd : env.deadlineErr with
    | some e => simp [Start, hd]
    | none =>
      have h := findSome_failure_ne_none SendStep.failure env.steps
      rw [← hokS] at h
      simpa [Start, hd, senderLoop_err] using h
  · intro h
    cases hd : env.deadlineErr with
    | some e => simp [Start, hd]
    | none => exact absurd hd h
  · intro pre post s hd hsteps hpre hs
    have hp : pulled SendStep.ok env.steps = pre ++ [s] := by
      rw [hsteps]; exact pulled_split _ pre post s hpre hs
    have hsf : s.failure ≠ none := by
      intro h; simp [SendStep.ok, h] at hs
    refine ⟨?_, ?_, ?_⟩
    · simp only [Start, hd, senderLoop_err, hsteps]
      rw [findSome_failure_split SendStep.failure pre post s hpre]
      cases h : s.failure with
      | none => exact absurd h hsf
      | some e => rfl
    · simp only [Start, hd]
      rw [← senderLoop_pulled _ env.steps, hp]
    · simp only [Start, hd, senderLoop_data, hp]
      have hfilter : (pre.filter SendStep.writeOk) = pre := by
        apply List.filter_eq_self.mpr
        intro x hx
        have := hpre x hx
        simp only [SendStep.ok, SendStep.failure] at this
        cases hw : x.writeErr with
        | none => simp [SendStep.writeOk, hw]
        | some e => simp [hw] at this
      rw [List.filter_append, hfilter]
      by_cases hw : s.writeOk = true <;> simp [hw, List.filter_cons]
  · cases ho : wenv.openErr with
    | some e => simp [StartWebTransport, firstFailureWT, ho]
    | none =>
      cases hd : wenv.deadlineErr with
      | some e => simp [StartWebTransport, firstFailureWT, ho, hd]
      | none => simp [StartWebTransport, firstFailureWT, ho, hd, webTransportSenderLoop_err]
  · cases ho : wenv.openErr with
    | some e => simp [StartWebTransport, ho]
    | none =>
      cases hd : wenv.deadlineErr with
      | some e => simp [StartWebTransport, ho, hd]
      | none =>
        have h := findSome_failure_ne_none WTSendStep.failure wenv.steps
        rw [← hokW] at h
        simpa [StartWebTransport, ho, hd, webTransportSenderLoop_err] using h
  · intro h
    cases ho : wenv.openErr with
    | some e => simp [StartWebTransport, ho]
    | none =>
      cases hd : wenv.deadlineErr with
      | some e => simp [StartWebTransport, ho, hd]
      | none => simp [ho, hd] at h
  · intro pre post s ho hd hsteps hpre hs
    have hp : pulled WTSendStep.ok wenv.steps = pre ++ [s] := by
      rw [hsteps]; exact pulled_split _ pre post s hpre hs
    have hsf : s.failure ≠ none := by
      intro h; simp [WTSendStep.ok, h] at hs
    refine ⟨?_, ?_, ?_⟩
    · simp only [StartWebTransport, ho, hd, webTransportSenderLoop_err, hsteps]
      rw [findSome_failure_split WTSendStep.failure pre post s hpre]
      cases h : s.failure with
      | none => exact absurd h hsf
      | some e => rfl
    · simp only [StartWebTransport, ho, hd]
      rw [← webTransportSenderLoop_pulled _ _ wenv.steps, hp]
    · simp only [StartWebTransport, ho, hd, webTransportSenderLoop_data, hp]
      have hfilter : (pre.filter WTSendStep.ok) = pre :=
        List.filter_eq_self.mpr hpre
      rw [List.filter_append, hfilter]
      simp [List.filter_cons, hs]

/-- Witness of C4. For `Start`: two good turns, a turn whose probe fails, one
more turn. For `StartWebTransport`: a good turn followed by a turn in which the
encoding and the close both fail (the error of the encoding is returned), by a
turn in which only the close fails, or by a turn in which the stream cannot be
opened; the sample of the failing turn is not appended and the turn after it is
not gone through. -/
theorem C4_sender_returns_the_first_failure_witness :
    (Start (sampleEnv [goodStep 1, goodStep 2,
        { m := sampleAt 3, writeErr := none, now := 3, pingErr := some "broken pipe" },
        goodStep 4]) freshData).err = some "broken pipe"
    ∧ (Start (sampleEnv [goodStep 1, goodStep 2,
        { m := sampleAt 3, writeErr := none, now := 3, pingErr := some "broken pipe" },
        goodStep 4]) freshData).data.ServerMeasurements
        = [sampleAt 1, sampleAt 2, sampleAt 3]
    ∧ (StartWebTransport (sampleWTEnv [goodWTStep 1,
        { goodWTStep 2 with encodeErr := some "stream reset", closeErr := some "close failed" },
        goodWTStep 3]) freshData).err = some "stream reset"
    ∧ (StartWebTransport (sampleWTEnv [goodWTStep 1,
        { goodWTStep 2 with encodeErr := some "stream reset", closeErr := some "close failed" },
        goodWTStep 3]) freshData).data.ServerMeasurements = [(goodWTStep 1).written]
    ∧ (StartWebTransport (sampleWTEnv [goodWTStep 1,
        { goodWTStep 2 with closeErr := some "close failed" },
        goodWTStep 3]) freshData).err = some "close failed"
    ∧ (StartWebTransport (sampleWTEnv [goodWTStep 1,
        { goodWTStep 2 with closeErr := some "close failed" },
        goodWTStep 3]) freshData).data.ServerMeasurements = [(goodWTStep 1).written]
    ∧ (StartWebTransport (sampleWTEnv [goodWTStep 1,
        { goodWTStep 2 with openErr := some "too many streams",
                            encodeErr := some "stream reset" },
        goodWTStep 3]) freshData).err = some "too many streams" := by
  have h := (C4_sender_returns_the_first_failure
    (sampleEnv [goodStep 1, goodStep 2,
        { m := sampleAt 3, writeErr := none, now := 3, pingErr := some "broken pipe" },
        goodStep 4]) (sampleWTEnv []) freshData).1.2.2.2
    [goodStep 1, goodStep 2] [goodStep 4]
    { m := sampleAt 3, writeErr := none, now := 3, pingErr := some "broken pipe" }
    rfl rfl (by decide) (by decide)
  have h1 := (C4_sender_returns_the_first_failure (sampleEnv [])
    (sampleWTEnv [goodWTStep 1,
        { goodWTStep 2 with encodeErr := some "stream reset", closeErr := some "close failed" },
        goodWTStep 3]) freshData).2.2.2.2
    [goodWTStep 1] [goodWTStep 3]
    { goodWTStep 2 with encodeErr := some "stream reset", closeErr := some "close failed" }
    rfl rfl rfl (by decide) (by decide)
  have h2 := (C4_sender_returns_the_first_failure (sampleEnv [])
    (sampleWTEnv [goodWTStep 1,
        { goodWTStep 2 with closeErr := some "close failed" },
        goodWTStep 3]) freshData).2.2.2.2
    [goodWTStep 1] [goodWTStep 3]
    { goodWTStep 2 with closeErr := some "close failed" }
    rfl rfl rfl (by decide) (by decide)
  have h3 := (C4_sender_returns_the_first_failure (sampleEnv [])
    (sampleWTEnv [goodWTStep 1,
        { goodWTStep 2 with openErr := some "too many streams",
                            encodeErr := some "stream reset" },
        goodWTStep 3]) freshData).2.2.2.2
    [goodWTStep 1] [goodWTStep 3]
    { goodWTStep 2 with openErr := some "too many streams",
                        encodeErr := some "stream reset" }
    rfl rfl rfl (by decide) (by decide)
  exact ⟨h.1, h.2.2, h1.1, h1.2.2, h2.1, h2.2.2, h3.1⟩

/-! ## Orchestrator: claims -/

/-- C5. Whatever the receiver goes through (failed read deadline, read error,
message of the wrong type, payload that does not decode, expired context),
`Do` and `DoWebTransport` return the error returned by the sender, `nil` when
the sender returned `nil`; two runs that differ only in what the receiver
goes through return the same value. -/
theorem C5_download_returns_the_error_of_the_sender
    (senderStart : ArchivalData → SenderResult)
    (senderStartWebTransport : WebTransportMeasurer → ArchivalData → SenderResult)
    (data : ArchivalData) :
    (∀ (unmarshal : String → Option Measurement) (deadlineErr : Option Error)
        (events : List RecvEvent),
        (Do senderStart unmarshal deadlineErr events data).err = (senderStart data).err)
    ∧ (∀ (unmarshal unmarshal' : String → Option Measurement)
        (deadlineErr deadlineErr' : Option Error) (events events' : List RecvEvent),
        (Do senderStart unmarshal deadlineErr events data).err
          = (Do senderStart unmarshal' deadlineErr' events' data).err)
    ∧ (∀ events : List StreamEvent,
        (DoWebTransport senderStartWebTransport events data).err
          = (senderStartWebTransport (NewWebTransport data.UUID) data).err)
    ∧ (∀ events events' : List StreamEvent,
        (DoWebTransport senderStartWebTransport events data).err
          = (DoWebTransport senderStartWebTransport events' data).err) :=
  ⟨fun _ _ _ => rfl, fun _ _ _ _ _ _ => rfl, fun _ => rfl, fun _ _ => rfl⟩

/-! ## Sender: end of the source, time stamps, deadlines, streams -/

/-- When the measurer closes its channel and no call has failed, `Start` calls
`closer.StartClosing(conn)` last on the connection and returns `nil`. -/
theorem Start_half_closes_when_source_closes (env : SenderEnv) (data : ArchivalData)
    (hd : env.deadlineErr = none) (hok : ∀ s ∈ env.steps, s.ok = true) :
    (Start env data).err = none
    ∧ ∃ body, (Start env data).trace
        = body ++ [.recv none, .startClosing, .metric "measurer-closed",
            .setEndTime env.endNow, .measurerStop] := by
  have hloop : ∀ (steps : List SendStep) (d : ArchivalData) (deadline : Time),
      (∀ s ∈ steps, s.ok = true) →
      (senderLoop deadline steps d).err = none
      ∧ ∃ body, (senderLoop deadline steps d).trace
          = body ++ [.recv none, .startClosing, .metric "measurer-closed"] := by
    intro steps
    induction steps with
    | nil => intro d deadline _; exact ⟨rfl, [], rfl⟩
    | cons s rest ih =>
      intro d deadline h
      have hs : s.ok = true := h s (by simp)
      simp only [SendStep.ok, SendStep.failure] at hs
      cases hw : s.writeErr with
      | some e => simp [hw] at hs
      | none =>
        cases hp : s.pingErr with
        | some e => simp [hw, hp] at hs
        | none =>
          obtain ⟨herr, body, hbody⟩ :=
            ih { d with ServerMeasurements := d.ServerMeasurements ++ [s.m] } deadline
              (fun x hx => h x (by simp [hx]))
          refine ⟨by simp [senderLoop, SendTicks, jsonMarshalInt64, hw, hp, herr], ?_⟩
          exact ⟨[.recv (some s.m), .write .conn s.m none,
              .writeControl PingMessage (toString s.now) deadline none] ++ body,
            by simp [senderLoop, SendTicks, jsonMarshalInt64, hw, hp, hbody]⟩
  obtain ⟨herr, body, hbody⟩ :=
    hloop env.steps { data with StartTime := env.startNow } (env.now + env.MaxRuntime) hok
  refine ⟨by simp [Start, hd, herr], ?_⟩
  exact ⟨[.measurerStart, .setWriteDeadline .conn (env.now + env.MaxRuntime) none,
      .setStartTime env.startNow] ++ body, by simp [Start, hd, hbody]⟩

/-- C7. The measurer closes its channel at once and every setup call succeeds.
`Start` calls `closer.StartClosing(conn)` and returns `nil`;
`StartWebTransport` returns `nil` too, but between the receive on the closed
channel and its return it makes no call on the session or on a stream. In no
run at all does `StartWebTransport` call `closer.StartClosing`. -/
theorem C7_webtransport_sender_returns_without_half_close :
    (Start (sampleEnv []) freshData).err = none
    ∧ (Start (sampleEnv []) freshData).trace
        = [.measurerStart, .setWriteDeadline .conn 15000000100 none, .setStartTime 101,
            .recv none, .startClosing, .metric "measurer-closed", .setEndTime 900,
            .measurerStop]
    ∧ (StartWebTransport (sampleWTEnv []) freshData).err = none
    ∧ (StartWebTransport (sampleWTEnv []) freshData).trace
        = [.measurerStart, .openUniStream 0 none,
            .setWriteDeadline (.stream 0) 15000000100 none, .setStartTime 101,
            .recv none, .metric "measurer-closed", .setEndTime 900, .measurerStop]
    ∧ (∀ (wenv : WTSenderEnv) (data : ArchivalData),
        Op.startClosing ∉ (StartWebTransport wenv data).trace) := by
  refine ⟨rfl, rfl, rfl, rfl, ?_⟩
  intro wenv data
  cases ho : wenv.openErr with
  | some e => simp [StartWebTransport, ho]
  | none =>
    cases hd : wenv.deadlineErr with
    | some e => simp [StartWebTransport, ho, hd]
    | none =>
      simp [StartWebTransport, ho, hd, webTransportSenderLoop_no_startClosing]

/-- C8, as stated, fails: when `conn.SetWriteDeadline` fails, `Start` returns
with `EndTime` as it was, not at the clock reading of the return, and the same
holds for `StartWebTransport` when the stream cannot be opened. -/
theorem C8_counterexample_setup_failure_leaves_endTime :
    (Start { sampleEnv [] with deadlineErr := some "closed" } freshData).data.EndTime = 0
    ∧ (Start { sampleEnv [] with deadlineErr := some "closed" } freshData).data.EndTime
        ≠ ({ sampleEnv [] with deadlineErr := some "closed" } : SenderEnv).endNow
    ∧ (StartWebTransport { sampleWTEnv [] with openErr := some "closed" } freshData).data.EndTime
        ≠ ({ sampleWTEnv [] with openErr := some "closed" } : WTSenderEnv).endNow := by
  refine ⟨rfl, by decide, by decide⟩

/-- C8, amended. In every run of `Start` whose deadline setup succeeds, and in
every run of `StartWebTransport` whose stream open and deadline setup succeed,
whatever the exit of the loop: `EndTime` holds the clock reading of the return
and its assignment is the last write before the measurer is stopped;
`StartTime` holds the reading taken before the loop, and no sample is received
before it is assigned. When the setup fails, both stamps are left as they
were. -/
theorem C8_time_stamps_once_setup_succeeded
    (env : SenderEnv) (wenv : WTSenderEnv) (data : ArchivalData) :
    (env.deadlineErr = none →
        (Start env data).data.EndTime = env.endNow
        ∧ (Start env data).data.StartTime = env.startNow
        ∧ (∃ pre post, (Start env data).trace = pre ++ .setStartTime env.startNow :: post
            ∧ ∀ op ∈ pre, op.isRecv = false)
        ∧ (∃ body, (Start env data).trace
            = body ++ [.setEndTime env.endNow, .measurerStop]))
    ∧ (env.deadlineErr ≠ none →
        (Start env data).data.EndTime = data.EndTime
        ∧ (Start env data).data.StartTime = data.StartTime)
    ∧ (wenv.openErr = none → wenv.deadlineErr = none →
        (StartWebTransport wenv data).data.EndTime = wenv.endNow
        ∧ (StartWebTransport wenv data).data.StartTime = wenv.startNow
        ∧ (∃ pre post, (StartWebTransport wenv data).trace
              = pre ++ .setStartTime wenv.startNow :: post
            ∧ ∀ op ∈ pre, op.isRecv = false)
        ∧ (∃ body, (StartWebTransport wenv data).trace
            = body ++ [.setEndTime wenv.endNow, .measurerStop]))
    ∧ (wenv.openErr ≠ none ∨ wenv.deadlineErr ≠ none →
        (StartWebTransport wenv data).data.EndTime = data.EndTime
        ∧ (StartWebTransport wenv data).data.StartTime = data.StartTime) := by
  refine ⟨?_, ?_, ?_, ?_⟩
  · intro hd
    refine ⟨by simp [Start, hd], by simp [Start, hd, senderLoop_data], ?_, ?_⟩
    · exact ⟨[.measurerStart, .setWriteDeadline .conn (env.now + env.MaxRuntime) none],
        (senderLoop (env.now + env.MaxRuntime) env.steps
          { data with StartTime := env.startNow }).trace
          ++ [.setEndTime env.endNow, .measurerStop],
        by simp [Start, hd], by simp [Op.isRecv]⟩
    · exact ⟨[.measurerStart, .setWriteDeadline .conn (env.now + env.MaxRuntime) none,
          .setStartTime env.startNow]
          ++ (senderLoop (env.now + env.MaxRuntime) env.steps
            { data with StartTime := env.startNow }).trace,
        by simp [Start, hd]⟩
  · intro hd
    cases h : env.deadlineErr with
    | none => exact absurd h hd
    | some e => simp [Start, h]
  · intro ho hd
    refine ⟨by simp [StartWebTransport, ho, hd],
      by simp [StartWebTransport, ho, hd, webTransportSenderLoop_data], ?_, ?_⟩
    · exact ⟨[.measurerStart, .openUniStream 0 none,
          .setWriteDeadline (.stream 0) (wenv.now + wenv.MaxRuntime) none],
        (webTransportSenderLoop (wenv.now + wenv.MaxRuntime) 1 wenv.steps
          { data with StartTime := wenv.startNow }).trace
          ++ [.setEndTime wenv.endNow, .measurerStop],
        by simp [StartWebTransport, ho, hd], by simp [Op.isRecv]⟩
    · exact ⟨[.measurerStart, .openUniStream 0 none,
          .setWriteDeadline (.stream 0) (wenv.now + wenv.MaxRuntime) none,
          .setStartTime wenv.startNow]
          ++ (webTransportSenderLoop (wenv.now + wenv.MaxRuntime) 1 wenv.steps
            { data with StartTime := wenv.startNow }).trace,
        by simp [StartWebTransport, ho, hd]⟩
  · intro h
    cases ho : wenv.openErr with
    | some e => simp [StartWebTransport, ho]
    | none =>
      cases hd : wenv.deadlineErr with
      | some e => simp [StartWebTransport, ho, hd]
      | none => simp [ho, hd] at h

/-- Witness of C8, amended: two good turns and a turn whose write fails. -/
theorem C8_time_stamps_once_setup_succeeded_witness :
    (Start (sampleEnv [goodStep 1, goodStep 2,
        { m := sampleAt 3, writeErr := some "reset", now := 3, pingErr := none }])
      freshData).data.EndTime = 900
    ∧ (StartWebTransport (sampleWTEnv [goodWTStep 1,
        { goodWTStep 2 with encodeErr := some "reset" }]) freshData).data.EndTime = 900 :=
  ⟨((C8_time_stamps_once_setup_succeeded
      (sampleEnv [goodStep 1, goodStep 2,
        { m := sampleAt 3, writeErr := some "reset", now := 3, pingErr := none }])
      (sampleWTEnv []) freshData).1 rfl).1,
    ((C8_time_stamps_once_setup_succeeded (sampleEnv [])
      (sampleWTEnv [goodWTStep 1, { goodWTStep 2 with encodeErr := some "reset" }])
      freshData).2.2.1 rfl rfl).1⟩

/-- In a run of `Start` that writes a message, the first call on the
connection is the `SetWriteDeadline(now + MaxRuntime)`, which returned `nil`,
and every message is written on that connection. -/
theorem Start_sets_deadline_before_writing (env : SenderEnv) (data : ArchivalData)
    (hw : (Start env data).trace.filterMap Op.writeTarget ≠ []) :
    (∃ rest, (Start env data).trace
        = .measurerStart :: .setWriteDeadline .conn (env.now + env.MaxRuntime) none :: rest)
    ∧ ∀ tgt ∈ (Start env data).trace.filterMap Op.writeTarget, tgt = .conn := by
  have hloop : ∀ (steps : List SendStep) (d : ArchivalData) (deadline : Time),
      ∀ tgt ∈ (senderLoop deadline steps d).trace.filterMap Op.writeTarget, tgt = .conn := by
    intro steps
    induction steps with
    | nil => intro d deadline; simp [senderLoop, Op.writeTarget]
    | cons s rest ih =>
      intro d deadline tgt
      cases hw : s.writeErr with
      | some e => simp [senderLoop, hw, Op.writeTarget]
      | none =>
        cases hp : s.pingErr with
        | some e => simp [senderLoop, SendTicks, jsonMarshalInt64, hw, hp, Op.writeTarget]
        | none =>
          simp only [senderLoop, SendTicks, jsonMarshalInt64, hw, hp, List.cons_append,
            List.nil_append, List.filterMap_cons, Op.writeTarget, List.mem_cons]
          rintro (h | h)
          · exact h
          · exact ih _ _ tgt h
  cases hd : env.deadlineErr with
  | some e => simp [Start, hd, Op.writeTarget] at hw
  | none =>
    refine ⟨⟨.setStartTime env.startNow ::
      ((senderLoop (env.now + env.MaxRuntime) env.steps
        { data with StartTime := env.startNow }).trace
        ++ [.setEndTime env.endNow, .measurerStop]), by simp [Start, hd]⟩, ?_⟩
    intro tgt h
    simp only [Start, hd, List.cons_append, List.nil_append, List.filterMap_cons,
      List.filterMap_append, List.filterMap_nil, Op.writeTarget, List.append_nil] at h
    exact hloop _ _ _ tgt h

/-- C9. One sample, every call succeeds. `StartWebTransport` sets the write
deadline on stream 0, the stream it opened before the loop, and writes the
message on stream 1, on which no deadline was ever set; `Start` sets the
deadline on the connection it then writes on. In every run of
`StartWebTransport`, no stream a message is written on has had a write
deadline set. -/
theorem C9_webtransport_writes_on_a_stream_without_deadline :
    (StartWebTransport (sampleWTEnv [goodWTStep 1]) freshData).trace.filterMap Op.deadlineTarget
        = [.stream 0]
    ∧ (StartWebTransport (sampleWTEnv [goodWTStep 1]) freshData).trace.filterMap Op.writeTarget
        = [.stream 1]
    ∧ (StartWebTransport (sampleWTEnv [goodWTStep 1]) freshData).err = none
    ∧ (Start (sampleEnv [goodStep 1]) freshData).trace.filterMap Op.deadlineTarget = [.conn]
    ∧ (Start (sampleEnv [goodStep 1]) freshData).trace.filterMap Op.writeTarget = [.conn]
    ∧ (∀ (wenv : WTSenderEnv) (data : ArchivalData),
        ∀ tgt ∈ (StartWebTransport wenv data).trace.filterMap Op.writeTarget,
          tgt ∉ (StartWebTransport wenv data).trace.filterMap Op.deadlineTarget) := by
  refine ⟨rfl, rfl, rfl, rfl, rfl, ?_⟩
  intro wenv data tgt
  cases ho : wenv.openErr with
  | some e => simp [StartWebTransport, ho, Op.writeTarget]
  | none =>
    cases hd : wenv.deadlineErr with
    | some e => simp [StartWebTransport, ho, hd, Op.writeTarget]
    | none =>
      simp only [StartWebTransport, ho, hd, List.cons_append, List.nil_append,
        List.filterMap_cons, List.filterMap_append, List.filterMap_nil, Op.writeTarget,
        Op.deadlineTarget, webTransportSenderLoop_no_deadline, List.append_nil,
        List.mem_singleton]
      intro h
      obtain ⟨id, hid, rfl⟩ := webTransportSenderLoop_writeTargets _ 1 _ _ tgt h
      intro hcontra
      injection hcontra with h0
      omega

/-- C10. One sample, every call succeeds. `StartWebTransport` opens two
streams and writes one message: stream 0 carries no message and is never
closed, stream 1 carries the message and is closed twice, once inside
`writeJSON` and once more after it returned. In every run whose first open
succeeds, one stream more is opened than messages are written; a stream is
closed once for every message written and once more for every message
delivered; stream 0 is never written on and never closed. -/
theorem C10_webtransport_streams_and_messages_differ :
    (StartWebTransport (sampleWTEnv [goodWTStep 1]) freshData).trace.filterMap Op.opened
        = [0, 1]
    ∧ (StartWebTransport (sampleWTEnv [goodWTStep 1]) freshData).trace.filterMap Op.writeTarget
        = [.stream 1]
    ∧ (StartWebTransport (sampleWTEnv [goodWTStep 1]) freshData).trace.filterMap Op.closed
        = [1, 1]
    ∧ (StartWebTransport (sampleWTEnv [goodWTStep 1]) freshData).err = none
    ∧ (∀ (wenv : WTSenderEnv) (data : ArchivalData),
        ((StartWebTransport wenv data).trace.filterMap Op.opened).length
            = ((StartWebTransport wenv data).trace.filterMap Op.writeTarget).length
              + (match wenv.openErr with
                 | none => 1
                 | some _ => 0)
        ∧ ((StartWebTransport wenv data).trace.filterMap Op.closed).length
            = ((StartWebTransport wenv data).trace.filterMap Op.writeTarget).length
              + (delivered (StartWebTransport wenv data).trace).length
        ∧ 0 ∉ (StartWebTransport wenv data).trace.filterMap Op.closed
        ∧ Target.stream 0 ∉ (StartWebTransport wenv data).trace.filterMap Op.writeTarget) := by
  refine ⟨rfl, rfl, rfl, rfl, ?_⟩
  intro wenv data
  rw [StartWebTransport_delivered]
  cases ho : wenv.openErr with
  | some e => simp [StartWebTransport, ho, Op.opened, Op.writeTarget, Op.closed]
  | none =>
    cases hd : wenv.deadlineErr with
    | some e => simp [StartWebTransport, ho, hd, Op.opened, Op.writeTarget, Op.closed]
    | none =>
      refine ⟨?_, ?_, ?_, ?_⟩
      · simp [StartWebTransport, ho, hd, Op.opened, Op.writeTarget,
          webTransportSenderLoop_opened]
      · simp [StartWebTransport, ho, hd, Op.closed, Op.writeTarget,
          webTransportSenderLoop_close_count]
      · intro h
        have h' : 0 ∈ (webTransportSenderLoop (wenv.now + wenv.MaxRuntime) 1 wenv.steps
            { data with StartTime := wenv.startNow }).trace.filterMap Op.closed := by
          simpa [StartWebTransport, ho, hd, Op.closed] using h
        have := webTransportSenderLoop_closed _ 1 _ _ 0 h'
        omega
      · intro h
        have h' : Target.stream 0 ∈ (webTransportSenderLoop (wenv.now + wenv.MaxRuntime) 1
            wenv.steps { data with StartTime := wenv.startNow }).trace.filterMap
              Op.writeTarget := by
          simpa [StartWebTransport, ho, hd, Op.writeTarget] using h
        obtain ⟨id, hid, heq⟩ := webTransportSenderLoop_writeTargets _ 1 _ _ _ h'
        injection heq with h0
        omega

/-! ## Sender: timing probes -/

/-- The probes the loop of `Start` tries to send: one after each write that
succeeded, carrying the clock reading of that turn. -/
theorem senderLoop_probes (deadline : Time) (steps : List SendStep) (data : ArchivalData) :
    (senderLoop deadline steps data).trace.filterMap Op.probeData =
      ((pulled SendStep.ok steps).filter SendStep.writeOk).map
        (fun s => (jsonMarshalInt64 s.now).1) := by
  induction steps generalizing data with
  | nil => simp [senderLoop, pulled_nil, Op.probeData]
  | cons s rest ih =>
    obtain ⟨m, writeErr, now, pingErr⟩ := s
    cases writeErr with
    | some e =>
      simp [senderLoop, pulled_cons, SendStep.ok, SendStep.failure, SendStep.writeOk,
        Op.probeData]
    | none =>
      cases pingErr with
      | some e =>
        simp [senderLoop, SendTicks, jsonMarshalInt64, pulled_cons, SendStep.ok,
          SendStep.failure, SendStep.writeOk, Op.probeData]
      | none =>
        simp [senderLoop, SendTicks, jsonMarshalInt64, pulled_cons, SendStep.ok,
          SendStep.failure, SendStep.writeOk, Op.probeData, ih]

/-- The probes the loop of `Start` sends: one in each turn that did not fail. -/
theorem senderLoop_probesSent (deadline : Time) (steps : List SendStep)
    (data : ArchivalData) :
    (senderLoop deadline steps data).trace.filterMap Op.probeSent =
      ((pulled SendStep.ok steps).filter SendStep.ok).map
        (fun s => (jsonMarshalInt64 s.now).1) := by
  induction steps generalizing data with
  | nil => simp [senderLoop, pulled_nil, Op.probeSent]
  | cons s rest ih =>
    obtain ⟨m, writeErr, now, pingErr⟩ := s
    cases writeErr with
    | some e =>
      simp [senderLoop, pulled_cons, SendStep.ok, SendStep.failure, Op.probeSent]
    | none =>
      cases pingErr with
      | some e =>
        simp [senderLoop, SendTicks, jsonMarshalInt64, pulled_cons, SendStep.ok,
          SendStep.failure, Op.probeSent]
      | none =>
        simp [senderLoop, SendTicks, jsonMarshalInt64, pulled_cons, SendStep.ok,
          SendStep.failure, Op.probeSent, ih]

/-- Among the turns gone through, at most one has a write that succeeded
without the turn succeeding: the last one, whose probe failed. -/
theorem pulled_writeOk_count (steps : List SendStep) :
    ((pulled SendStep.ok steps).filter SendStep.ok).length
        ≤ ((pulled SendStep.ok steps).filter SendStep.writeOk).length
    ∧ ((pulled SendStep.ok steps).filter SendStep.writeOk).length
        ≤ ((pulled SendStep.ok steps).filter SendStep.ok).length + 1 := by
  induction steps with
  | nil => simp [pulled_nil]
  | cons s rest ih =>
    rw [pulled_cons]
    by_cases hok : s.ok = true
    · have hw : s.writeOk = true := by
        simp only [SendStep.ok, SendStep.failure] at hok
        cases h : s.writeErr with
        | none => simp [SendStep.writeOk, h]
        | some e => simp [h] at hok
      simp only [hok, if_true, List.filter_cons, hw, List.length_cons]
      omega
    · simp only [hok, if_false, List.filter_cons, List.filter_nil, Bool.false_eq_true]
      by_cases hw : s.writeOk = true <;> simp [hw]

/-- The loop of `StartWebTransport` sends no probe. -/
theorem webTransportSenderLoop_no_probe (deadline : Time) (next : Nat)
    (steps : List WTSendStep) (data : ArchivalData) :
    (webTransportSenderLoop deadline next steps data).trace.filterMap Op.probeData = [] := by
  induction steps generalizing data next with
  | nil => simp [webTransportSenderLoop, Op.probeData]
  | cons s rest ih =>
    cases ho : s.openErr <;> cases he : s.encodeErr <;> cases hc : s.closeErr <;>
      simp [webTransportSenderLoop, writeJSON, SendTicksWebTransport, Op.probeData,
        ho, he, hc, ih]

/-- C11. One sample, every call succeeds: `StartWebTransport` delivers one
message and sends no timing probe, whereas `Start` sends one, carrying the
clock reading. In no run does `StartWebTransport` send a probe. In every run
of `Start` a probe carrying the current clock reading is tried after each
delivered message, and the probes sent are as many as the delivered messages,
or one fewer. -/
theorem C11_webtransport_sender_sends_no_probe :
    (delivered (StartWebTransport (sampleWTEnv [goodWTStep 1]) freshData).trace).length = 1
    ∧ (StartWebTransport (sampleWTEnv [goodWTStep 1]) freshData).trace.filterMap Op.probeData
        = []
    ∧ (delivered (Start (sampleEnv [goodStep 1]) freshData).trace).length = 1
    ∧ (Start (sampleEnv [goodStep 1]) freshData).trace.filterMap Op.probeSent = ["1"]
    ∧ (∀ (wenv : WTSenderEnv) (data : ArchivalData),
        (StartWebTransport wenv data).trace.filterMap Op.probeData = [])
    ∧ (∀ (env : SenderEnv) (data : ArchivalData),
        ((Start env data).trace.filterMap Op.probeData).length
            = (delivered (Start env data).trace).length
        ∧ ((Start env data).trace.filterMap Op.probeSent).length
            ≤ (delivered (Start env data).trace).length
        ∧ (delivered (Start env data).trace).length
            ≤ ((Start env data).trace.filterMap Op.probeSent).length + 1) := by
  refine ⟨rfl, rfl, rfl, rfl, ?_, ?_⟩
  · intro wenv data
    cases ho : wenv.openErr with
    | some e => simp [StartWebTransport, ho, Op.probeData]
    | none =>
      cases hd : wenv.deadlineErr with
      | some e => simp [StartWebTransport, ho, hd, Op.probeData]
      | none => simp [StartWebTransport, ho, hd, Op.probeData, webTransportSenderLoop_no_probe]
  · intro env data
    rw [Start_delivered]
    cases hd : env.deadlineErr with
    | some e => simp [Start, hd, Op.probeData, Op.probeSent]
    | none =>
      have h := pulled_writeOk_count env.steps
      simp only [Start, hd, List.cons_append, List.nil_append, List.filterMap_cons,
        List.filterMap_append, List.filterMap_nil, Op.probeData, Op.probeSent,
        senderLoop_probes, senderLoop_probesSent, List.append_nil, List.length_map]
      exact ⟨trivial, h⟩

/-! ## Stream receiver -/

/-- The inner read loop of `startWebTransport` always exits with an error:
the one a `Read` returned, or `io.EOF` at the end of the stream. -/
theorem readStream_err_isSome (reads : List ReadResult) (tally : Nat) :
    (readStream reads tally).2.isSome = true := by
  induction reads generalizing tally with
  | nil => simp [readStream]
  | cons r rest ih =>
    cases h : r.err with
    | some e => simp [readStream, h]
    | none => simp [readStream, h, ih]

/-- On a stream delivered completely the inner read loop adds the sizes of all
the reads to the tally, in `uint64` arithmetic, and exits with `io.EOF`. -/
theorem readStream_complete (sizes : List Nat) (tally : Nat) :
    readStream (sizes.map (fun n => { n := n, err := none })) tally
      = ((tally + sizes.sum) % 2 ^ 64, some EOF) := by
  induction sizes generalizing tally with
  | nil => simp [readStream]
  | cons n rest ih =>
    simp only [List.map_cons, readStream, ih, List.sum_cons]
    congr 1
    rw [Nat.add_mod, Nat.mod_mod, ← Nat.add_mod, Nat.add_assoc]

/-- The stream receiver returns at the end of the first stream it accepts,
whatever follows. -/
theorem startWebTransportLoop_first_stream (kind : receiverKind) (reads : List ReadResult)
    (rest : List StreamEvent) (data : ArchivalData) (mr : WebTransportMeasurer) :
    startWebTransportLoop kind (.stream reads :: rest) data mr
      = { data := data,
          mr := { mr with BytesReceived := (readStream reads mr.BytesReceived).1 },
          stopped := some (kind.label, "read-message") } := by
  have h := readStream_err_isSome reads mr.BytesReceived
  rcases hr : readStream reads mr.BytesReceived with ⟨tally, err⟩
  rw [hr] at h
  cases err with
  | none => simp at h
  | some e => simp [startWebTransportLoop, hr]

/-- C12. Two streams delivered completely, of 10 and 7 bytes: the receiver
reads the first, counts the end of the stream as a read error and returns with
a tally of 10; the second stream is never accepted. In every run the receiver
returns at the end of the first stream, with the tally advanced by the bytes of
that stream only. -/
theorem C12_stream_receiver_stops_after_the_first_stream :
    (startWebTransport .uploadReceiver [completeStream [10], completeStream [7]] freshData
        (NewWebTransport "uuid")).mr.BytesReceived = 10
    ∧ (startWebTransport .uploadReceiver [completeStream [10], completeStream [7]] freshData
        (NewWebTransport "uuid")).stopped = some ("1", "read-message")
    ∧ (startWebTransport .uploadReceiver [completeStream [10]] freshData
        (NewWebTransport "uuid")).stopped = some ("1", "read-message")
    ∧ (∀ (kind : receiverKind) (sizes : List Nat) (rest : List StreamEvent)
        (data : ArchivalData) (mr : WebTransportMeasurer),
        startWebTransport kind (completeStream sizes :: rest) data mr
          = { data := data,
              mr := { mr with BytesReceived := (mr.BytesReceived + sizes.sum) % 2 ^ 64 },
              stopped := some (kind.label, "read-message") }) := by
  refine ⟨rfl, rfl, rfl, ?_⟩
  intro kind sizes rest data mr
  simp only [startWebTransport, completeStream]
  rw [startWebTransportLoop_first_stream, readStream_complete]

/-! ## Receiver: order of the client sequence, single writer -/

/-- The record the loop of `start` leaves: only the client sequence changes,
by the accepted measurements. -/
theorem startLoop_data (unmarshal : String → Option Measurement) (kind : receiverKind)
    (events : List RecvEvent) (data : ArchivalData) :
    (startLoop unmarshal kind events data).data =
      { data with ClientMeasurements :=
          data.ClientMeasurements ++ accepted unmarshal kind events } := by
  unfold accepted
  induction events generalizing data with
  | nil => simp [startLoop]
  | cons e rest ih =>
    cases e with
    | ctxExpired => simp [startLoop, RecvEvent.terminates]
    | readError => simp [startLoop, RecvEvent.terminates]
    | message mtype body =>
      by_cases hm : mtype = TextMessage
      · subst hm
        cases body with
        | none => simp [startLoop, RecvEvent.terminates]
        | some mdata =>
          cases h : unmarshal mdata <;>
            simp [startLoop, RecvEvent.terminates, RecvEvent.decoded, h, ih]
      · have hd : RecvEvent.decoded unmarshal (.message mtype body) = none := by
          cases body <;> simp [RecvEvent.decoded, hm]
        cases kind
        · simp [startLoop, RecvEvent.terminates, hm]
        · rw [List.takeWhile_cons_of_pos (by simp [RecvEvent.terminates, hm]),
            List.filterMap_cons_none hd]
          simp [startLoop, hm, ih]

/-- The record `start` leaves. -/
theorem start_data (unmarshal : String → Option Measurement) (deadlineErr : Option Error)
    (kind : receiverKind) (events : List RecvEvent) (data : ArchivalData) :
    (start unmarshal deadlineErr kind events data).data =
      { data with ClientMeasurements := data.ClientMeasurements ++
          (match deadlineErr with
           | some _ => []
           | none => accepted unmarshal kind events) } := by
  cases deadlineErr with
  | some e => simp [start]
  | none => simp [start, startLoop_data]

/-- The stream receiver leaves the record as it was. -/
theorem startWebTransportLoop_data (kind : receiverKind) (events : List StreamEvent)
    (data : ArchivalData) (mr : WebTransportMeasurer) :
    (startWebTransportLoop kind events data mr).data = data := by
  cases events with
  | nil => rfl
  | cons e rest =>
    cases e with
    | ctxExpired => rfl
    | acceptError => rfl
    | stream reads => rw [startWebTransportLoop_first_stream]

/-- C13, as stated, fails: the peer sends a report with elapsed time 2 and
then one with elapsed time 1; both are appended, in that order. -/
theorem C13_counterexample_client_elapsed_times_decrease :
    (start sampleUnmarshal none .downloadReceiver
        [.message TextMessage (some "bb"), .message TextMessage (some "a")]
        freshData).data.ClientMeasurements.map Measurement.elapsedTime = [2, 1]
    ∧ ¬ nonDecreasing (start sampleUnmarshal none .downloadReceiver
        [.message TextMessage (some "bb"), .message TextMessage (some "a")]
        freshData).data.ClientMeasurements := by
  have h : (start sampleUnmarshal none .downloadReceiver
        [.message TextMessage (some "bb"), .message TextMessage (some "a")]
        freshData).data.ClientMeasurements
      = [{ ConnectionInfo := none, TCPInfo := none,
           QUICInfo := some { ElapsedTime := 2, QUICStreamBytesReceived := 0 } },
         { ConnectionInfo := none, TCPInfo := none,
           QUICInfo := some { ElapsedTime := 1, QUICStreamBytesReceived := 0 } }] := rfl
  rw [h]
  exact ⟨rfl, by simp [nonDecreasing, Measurement.elapsedTime]⟩

/-- C13, amended. The receiver appends the accepted measurements in arrival
order and looks at no elapsed time: the client sequence it leaves has
non-decreasing elapsed times exactly when the initial sequence followed by the
accepted measurements, in arrival order, has. -/
theorem C13_client_sequence_keeps_the_arrival_order
    (unmarshal : String → Option Measurement) (deadlineErr : Option Error)
    (kind : receiverKind) (events : List RecvEvent) (data : ArchivalData) :
    (start unmarshal deadlineErr kind events data).data.ClientMeasurements
        = data.ClientMeasurements ++
          (match deadlineErr with
           | some _ => []
           | none => accepted unmarshal kind events)
    ∧ (nonDecreasing (start unmarshal deadlineErr kind events data).data.ClientMeasurements
        ↔ nonDecreasing (data.ClientMeasurements ++
          (match deadlineErr with
           | some _ => []
           | none => accepted unmarshal kind events))) := by
  have h : (start unmarshal deadlineErr kind events data).data.ClientMeasurements
        = data.ClientMeasurements ++
          (match deadlineErr with
           | some _ => []
           | none => accepted unmarshal kind events) := by
    rw [start_data]
  exact ⟨h, by rw [h]⟩

theorem pulled_append {α : Type} (ok : α → Bool) (pre post : List α) :
    pulled ok (pre ++ post) = if pre.all ok then pre ++ pulled ok post else pulled ok pre := by
  induction pre with
  | nil => simp
  | cons x pre ih =>
    rw [List.cons_append, pulled_cons, pulled_cons, ih]
    by_cases hx : ok x = true
    · by_cases hall : pre.all ok = true <;> simp [hx, hall]
    · simp [hx]

/-- Going through more turns only adds to the turns gone through. -/
theorem pulled_append_extends {α : Type} (ok : α → Bool) (pre post : List α) :
    ∃ more, pulled ok (pre ++ post) = pulled ok pre ++ more := by
  by_cases hall : pre.all ok = true
  · have h1 := pulled_append ok pre post
    have h2 := pulled_append ok pre []
    rw [if_pos hall] at h1 h2
    rw [List.append_nil, pulled_nil, List.append_nil] at h2
    exact ⟨pulled ok post, by rw [h1, h2]⟩
  · exact ⟨[], by rw [pulled_append, if_neg hall, List.append_nil]⟩

/-- Receiving more events only adds to the accepted measurements. -/
theorem accepted_append_extends (unmarshal : String → Option Measurement)
    (kind : receiverKind) (pre post : List RecvEvent) :
    ∃ more, accepted unmarshal kind (pre ++ post) = accepted unmarshal kind pre ++ more := by
  unfold accepted
  induction pre with
  | nil =>
    exact ⟨(post.takeWhile (fun e => !e.terminates unmarshal kind)).filterMap
      (fun e => e.decoded unmarshal), by simp⟩
  | cons e pre ih =>
    obtain ⟨more, hmore⟩ := ih
    by_cases ht : e.terminates unmarshal kind = true
    · exact ⟨[], by simp [List.takeWhile_cons, ht]⟩
    · refine ⟨more, ?_⟩
      simp only [List.cons_append, List.takeWhile_cons, ht, Bool.not_false, Bool.not_eq_true,
        if_true, Bool.false_eq_true, not_false_eq_true]
      cases hd : e.decoded unmarshal with
      | none =>
        rw [List.filterMap_cons_none hd, List.filterMap_cons_none hd]
        exact hmore
      | some m =>
        rw [List.filterMap_cons_some hd, List.filterMap_cons_some hd, hmore]
        rfl

/-- C16. Single writer per sequence. `start` leaves the server sequence, the
two time stamps and the uuid as they were and only appends to the client
sequence, and what it has appended after some events is kept when more events
follow; `startWebTransport` leaves the whole record as it was. `Start` and
`StartWebTransport` leave the client sequence and the uuid as they were and
only append to the server sequence, and what they have appended after some
turns is kept when more turns follow. -/
theorem C16_single_writer_per_sequence
    (unmarshal : String → Option Measurement) (deadlineErr : Option Error)
    (kind : receiverKind) (events : List RecvEvent) (streamEvents : List StreamEvent)
    (mr : WebTransportMeasurer) (env : SenderEnv) (wenv : WTSenderEnv)
    (data : ArchivalData) :
    ((start unmarshal deadlineErr kind events data).data.ServerMeasurements
          = data.ServerMeasurements
      ∧ (start unmarshal deadlineErr kind events data).data.StartTime = data.StartTime
      ∧ (start unmarshal deadlineErr kind events data).data.EndTime = data.EndTime
      ∧ (start unmarshal deadlineErr kind events data).data.UUID = data.UUID
      ∧ (∃ tail, (start unmarshal deadlineErr kind events data).data.ClientMeasurements
          = data.ClientMeasurements ++ tail)
      ∧ (∀ more : List RecvEvent, ∃ tail,
          (start unmarshal deadlineErr kind (events ++ more) data).data.ClientMeasurements
            = (start unmarshal deadlineErr kind events data).data.ClientMeasurements ++ tail))
    ∧ (startWebTransport kind streamEvents data mr).data = data
    ∧ ((Start env data).data.ClientMeasurements = data.ClientMeasurements
      ∧ (Start env data).data.UUID = data.UUID
      ∧ (∃ tail, (Start env data).data.ServerMeasurements = data.ServerMeasurements ++ tail)
      ∧ (∀ more : List SendStep, ∃ tail,
          (Start { env with steps := env.steps ++ more } data).data.ServerMeasurements
            = (Start env data).data.ServerMeasurements ++ tail))
    ∧ ((StartWebTransport wenv data).data.ClientMeasurements = data.ClientMeasurements
      ∧ (StartWebTransport wenv data).data.UUID = data.UUID
      ∧ (∃ tail, (StartWebTransport wenv data).data.ServerMeasurements
          = data.ServerMeasurements ++ tail)
      ∧ (∀ more : List WTSendStep, ∃ tail,
          (StartWebTransport { wenv with steps := wenv.steps ++ more }
              data).data.ServerMeasurements
            = (StartWebTransport wenv data).data.ServerMeasurements ++ tail)) := by
  refine ⟨⟨?_, ?_, ?_, ?_, ?_, ?_⟩, ?_, ⟨?_, ?_, ?_, ?_⟩, ⟨?_, ?_, ?_, ?_⟩⟩
  · rw [start_data]
  · rw [start_data]
  · rw [start_data]
  · rw [start_data]
  · exact ⟨_, by rw [start_data]⟩
  · intro more
    rw [start_data, start_data]
    cases deadlineErr with
    | some e => exact ⟨[], by simp⟩
    | none =>
      obtain ⟨tail, htail⟩ := accepted_append_extends unmarshal kind events more
      exact ⟨tail, by simp [htail]⟩
  · simp [startWebTransport, startWebTransportLoop_data]
  · cases hd : env.deadlineErr with
    | some e => simp [Start, hd]
    | none => simp [Start, hd, senderLoop_data]
  · cases hd : env.deadlineErr with
    | some e => simp [Start, hd]
    | none => simp [Start, hd, senderLoop_data]
  · cases hd : env.deadlineErr with
    | some e => exact ⟨[], by simp [Start, hd]⟩
    | none =>
      exact ⟨((pulled SendStep.ok env.steps).filter SendStep.writeOk).map (fun s => s.m),
        by simp [Start, hd, senderLoop_data]⟩
  · intro more
    cases hd : env.deadlineErr with
    | some e => exact ⟨[], by simp [Start, hd]⟩
    | none =>
      obtain ⟨extra, hextra⟩ := pulled_append_extends SendStep.ok env.steps more
      exact ⟨(extra.filter SendStep.writeOk).map (fun s => s.m),
        by simp [Start, hd, senderLoop_data, hextra]⟩
  · cases ho : wenv.openErr with
    | some e => simp [StartWebTransport, ho]
    | none =>
      cases hd : wenv.deadlineErr with
      | some e => simp [StartWebTransport, ho, hd]
      | none => simp [StartWebTransport, ho, hd, webTransportSenderLoop_data]
  · cases ho : wenv.openErr with
    | some e => simp [StartWebTransport, ho]
    | none =>
      cases hd : wenv.deadlineErr with
      | some e => simp [StartWebTransport, ho, hd]
      | none => simp [StartWebTransport, ho, hd, webTransportSenderLoop_data]
  · cases ho : wenv.openErr with
    | some e => exact ⟨[], by simp [StartWebTransport, ho]⟩
    | none =>
      cases hd : wenv.deadlineErr with
      | some e => exact ⟨[], by simp [StartWebTransport, ho, hd]⟩
      | none =>
        exact ⟨((pulled WTSendStep.ok wenv.steps).filter WTSendStep.ok).map
            (fun s => s.written),
          by simp [StartWebTransport, ho, hd, webTransportSenderLoop_data]⟩
  · intro more
    cases ho : wenv.openErr with
    | some e => exact ⟨[], by simp [StartWebTransport, ho]⟩
    | none =>
      cases hd : wenv.deadlineErr with
      | some e => exact ⟨[], by simp [StartWebTransport, ho, hd]⟩
      | none =>
        obtain ⟨extra, hextra⟩ := pulled_append_extends WTSendStep.ok wenv.steps more
        exact ⟨(extra.filter WTSendStep.ok).map (fun s => s.written),
          by simp [StartWebTransport, ho, hd, webTransportSenderLoop_data, hextra]⟩

/-! ## Measurer: claims -/

/-- The loop over the ticks emits one measurement per tick, in order. -/
theorem loopTicks_eq_map (measure : Measurement → WebTransportMockConnInfo → Int → Measurement)
    (ci : WebTransportMockConnInfo) (start : Time) (connectionInfo : ConnectionInfo)
    (ticks : List Time) :
    loopTicks measure ci start connectionInfo ticks =
      ticks.map (fun now =>
        { measure Measurement.zero ci (timeSub now start) with
          ConnectionInfo := some connectionInfo }) := by
  induction ticks with
  | nil => rfl
  | cons now rest ih => simp [loopTicks, ih]

/-- C14. For every list of instants delivered by the ticker, with a consumer
that takes every send, `WebTransportMeasurer.loop` emits exactly one
measurement per tick, in tick order: the one `measure` samples on the zero
value with the elapsed time `now.Sub(start)`, with the connection identity
(remote address, local address, uuid given to `NewWebTransport`) attached; the
output is then closed. The elapsed time is the difference `now - start`
whenever that fits a `Duration`. -/
theorem C14_loop_emits_one_measurement_per_tick
    (measure : Measurement → WebTransportMockConnInfo → Int → Measurement)
    (sess : SessionAddrs) (UUID : String) (start : Time) (ticks : List Time) :
    ((NewWebTransport UUID).loop measure sess start none ticks).emitted
        = ticks.map (fun now =>
            { measure Measurement.zero {} (timeSub now start) with
              ConnectionInfo := some
                { Client := sess.RemoteAddr, Server := sess.LocalAddr, UUID := UUID } })
    ∧ ((NewWebTransport UUID).loop measure sess start none ticks).emitted.length
        = ticks.length
    ∧ (∀ x ∈ ((NewWebTransport UUID).loop measure sess start none ticks).emitted,
        x.ConnectionInfo = some
          { Client := sess.RemoteAddr, Server := sess.LocalAddr, UUID := UUID })
    ∧ ((NewWebTransport UUID).loop measure sess start none ticks).closed = true
    ∧ (∀ now : Time, -(2 ^ 63) ≤ now - start → now - start ≤ 2 ^ 63 - 1 →
        timeSub now start = now - start) := by
  have h : ((NewWebTransport UUID).loop measure sess start none ticks).emitted
        = ticks.map (fun now =>
            { measure Measurement.zero {} (timeSub now start) with
              ConnectionInfo := some
                { Client := sess.RemoteAddr, Server := sess.LocalAddr, UUID := UUID } }) := by
    simp [WebTransportMeasurer.loop, WebTransportMeasurer.loopWith,
      getSocketAndPossiblyEnableBBR, NewWebTransport, loopTicks_eq_map]
  refine ⟨h, ?_, ?_, ?_, ?_⟩
  · rw [h, List.length_map]
  · intro x hx
    rw [h, List.mem_map] at hx
    obtain ⟨now, _, rfl⟩ := hx
    rfl
  · simp [WebTransportMeasurer.loop, WebTransportMeasurer.loopWith,
      getSocketAndPossiblyEnableBBR]
  · intro now h1 h2
    unfold timeSub
    rw [if_neg (not_lt.mpr h2), if_neg (not_lt.mpr h1)]

/-- Witness of C14: three ticks, 100, 250 and 400 microseconds after the
start, sampled with `measureWebTransport`. -/
theorem C14_loop_emits_one_measurement_per_tick_witness :
    (((NewWebTransport "uuid").loop measureWebTransport
        { RemoteAddr := "client:1", LocalAddr := "server:2" } 1000000
        none [1100000, 1250000, 1400000]).emitted.map Measurement.elapsedTime
      = [100, 250, 400])
    ∧ timeSub 1100000 1000000 = 1100000 - 1000000 := by
  have h := C14_loop_emits_one_measurement_per_tick measureWebTransport
    { RemoteAddr := "client:1", LocalAddr := "server:2" } "uuid" 1000000
    [1100000, 1250000, 1400000]
  refine ⟨?_, h.2.2.2.2 1100000 (by decide) (by decide)⟩
  rw [h.1]
  rfl

/-- C17. When `getSocketAndPossiblyEnableBBR` returns an error, or when
`memoryless.NewTicker` does, the loop returns at once: nothing has been
emitted and the output is closed. The consumer `StartWebTransport` then finds
the channel closed at its first receive and returns `nil`. As written,
`getSocketAndPossiblyEnableBBR` always returns a `nil` error. -/
theorem C17_loop_closes_an_empty_output_when_setup_fails
    (m : WebTransportMeasurer)
    (measure : Measurement → WebTransportMockConnInfo → Int → Measurement)
    (sess : SessionAddrs) (start : Time) :
    (∀ (counted : List (String × String)) (ci : WebTransportMockConnInfo) (err : Error)
        (tickerErr : Option Error) (ticks : List Time),
        (m.loopWith measure sess (counted, ci, some err) start tickerErr ticks).emitted = []
        ∧ (m.loopWith measure sess (counted, ci, some err) start tickerErr ticks).closed
            = true)
    ∧ (∀ (err : Error) (ticks : List Time),
        (m.loop measure sess start (some err) ticks).emitted = []
        ∧ (m.loop measure sess start (some err) ticks).closed = true)
    ∧ getSocketAndPossiblyEnableBBR.2.2 = none
    ∧ (∀ (err : Error) (ticks : List Time) (wenv : WTSenderEnv) (data : ArchivalData),
        (StartWebTransport { wenv with
            openErr := none, deadlineErr := none,
            steps := (m.loop measure sess start (some err) ticks).emitted.map turnOf }
          data).err = none
        ∧ Op.recv none ∈ (StartWebTransport { wenv with
            openErr := none, deadlineErr := none,
            steps := (m.loop measure sess start (some err) ticks).emitted.map turnOf }
          data).trace
        ∧ (StartWebTransport { wenv with
            openErr := none, deadlineErr := none,
            steps := (m.loop measure sess start (some err) ticks).emitted.map turnOf }
          data).data.ServerMeasurements = data.ServerMeasurements) := by
  refine ⟨?_, ?_, rfl, ?_⟩
  · intro counted ci err tickerErr ticks
    exact ⟨rfl, rfl⟩
  · intro err ticks
    exact ⟨rfl, rfl⟩
  · intro err ticks wenv data
    have h : (m.loop measure sess start (some err) ticks).emitted = [] := rfl
    rw [h]
    simp [StartWebTransport, webTransportSenderLoop]

/-! ## Timing probe: round trip -/

theorem digitChar_isDigit (k : Nat) (h : k < 10) : (Nat.digitChar k).isDigit = true := by
  interval_cases k <;> decide

theorem digitChar_value (k : Nat) (h : k < 10) : (Nat.digitChar k).toNat - 48 = k := by
  interval_cases k <;> decide

theorem digitChar_eq_zero (k : Nat) (h : k < 10) (h0 : Nat.digitChar k = '0') : k = 0 := by
  interval_cases k <;> first | rfl | (exact absurd h0 (by decide))

theorem toDigitsCore_succ (fuel n : Nat) (ds : List Char) :
    Nat.toDigitsCore 10 (fuel + 1) n ds =
      if n / 10 = 0 then Nat.digitChar (n % 10) :: ds
      else Nat.toDigitsCore 10 fuel (n / 10) (Nat.digitChar (n % 10) :: ds) := by
  simp [Nat.toDigitsCore]

/-- The decimal digits of `n`, as the standard printer produces them: at least
one character, all digits, no leading zero unless `n = 0`, and of value `n`. -/
theorem toDigitsCore_spec (fuel : Nat) : ∀ (n : Nat) (ds : List Char), n < fuel →
    ∃ c pre, Nat.toDigitsCore 10 fuel n ds = (c :: pre) ++ ds
      ∧ (∀ x ∈ c :: pre, x.isDigit = true)
      ∧ (c = '0' → pre = [] ∧ n = 0)
      ∧ digitsValue (c :: pre) = n := by
  induction fuel with
  | zero => intro n ds h; omega
  | succ fuel ih =>
    intro n ds hn
    rw [toDigitsCore_succ]
    have hmod : n % 10 < 10 := Nat.mod_lt _ (by decide)
    by_cases h0 : n / 10 = 0
    · have hlt : n < 10 := by omega
      have hm : n % 10 = n := Nat.mod_eq_of_lt hlt
      rw [if_pos h0, hm]
      refine ⟨Nat.digitChar n, [], rfl, ?_, ?_, ?_⟩
      · intro x hx
        simp at hx
        subst hx
        exact digitChar_isDigit n hlt
      · intro hc
        exact ⟨rfl, digitChar_eq_zero n hlt hc⟩
      · simp [digitsValue, digitChar_value n hlt]
    · rw [if_neg h0]
      obtain ⟨c, pre, heq, hdig, hzero, hval⟩ :=
        ih (n / 10) (Nat.digitChar (n % 10) :: ds) (by omega)
      refine ⟨c, pre ++ [Nat.digitChar (n % 10)], ?_, ?_, ?_, ?_⟩
      · rw [heq]; simp
      · intro x hx
        simp only [List.mem_cons, List.mem_append, List.mem_singleton, List.not_mem_nil,
          or_false] at hx
        rcases hx with h | h | h
        · exact hdig x (by simp [h])
        · exact hdig x (by simp [h])
        · subst h; exact digitChar_isDigit _ hmod
      · intro hc
        exact absurd (hzero hc).2 h0
      · have hv : digitsValue (c :: (pre ++ [Nat.digitChar (n % 10)]))
            = 10 * digitsValue (c :: pre) + ((Nat.digitChar (n % 10)).toNat - 48) := by
          unfold digitsValue
          rw [← List.cons_append, List.foldl_append]
          rfl
        rw [hv, hval, digitChar_value _ hmod]
        omega

theorem isJSONSpace_of_isDigit (c : Char) (h : c.isDigit = true) : isJSONSpace c = false := by
  simp only [isJSONSpace, Bool.or_eq_false_iff, decide_eq_false_iff_not]
  refine ⟨⟨⟨?_, ?_⟩, ?_⟩, ?_⟩ <;> (rintro rfl; revert h; decide)

theorem dropWhile_eq_self {α : Type} (p : α → Bool) (xs : List α)
    (h : ∀ x ∈ xs, p x = false) : xs.dropWhile p = xs := by
  cases xs with
  | nil => rfl
  | cons x rest => simp [List.dropWhile, h x (by simp)]

theorem trimJSONSpace_eq_self (cs : List Char) (h : ∀ x ∈ cs, isJSONSpace x = false) :
    trimJSONSpace cs = cs := by
  unfold trimJSONSpace
  rw [dropWhile_eq_self _ cs h,
    dropWhile_eq_self _ cs.reverse (fun x hx => h x (List.mem_reverse.mp hx)),
    List.reverse_reverse]

/-- The decoder reads back the digits the printer produces for `n`. -/
theorem parseDigits_toDigits (n : Nat) : parseDigits (Nat.toDigits 10 n) = some n := by
  obtain ⟨c, pre, heq, hdig, hzero, hval⟩ := toDigitsCore_spec (n + 1) n [] (by omega)
  have hd : Nat.toDigits 10 n = c :: pre := by
    unfold Nat.toDigits
    rw [heq, List.append_nil]
  have hall : (c :: pre).all Char.isDigit = true := List.all_eq_true.mpr hdig
  have hlead : (c != '0' || pre.isEmpty) = true := by
    by_cases hc : c = '0'
    · simp [(hzero hc).1]
    · simp [hc]
  rw [hd]
  simp only [parseDigits, hall, hlead, Bool.and_self, if_true, hval]

/-- The decoder reads back the text the encoder produces for an `int64`. -/
theorem jsonUnmarshalInt64_marshal (t prev : Int) (hlo : -(2 ^ 63) ≤ t) (hhi : t < 2 ^ 63) :
    jsonUnmarshalInt64 (jsonMarshalInt64 t).1 prev = some t := by
  cases t with
  | ofNat n =>
    obtain ⟨c, pre, heq, hdig, -, -⟩ := toDigitsCore_spec (n + 1) n [] (by omega)
    have hd : Nat.toDigits 10 n = c :: pre := by
      unfold Nat.toDigits
      rw [heq, List.append_nil]
    have hdata : (jsonMarshalInt64 (Int.ofNat n)).1.data = Nat.toDigits 10 n := rfl
    have hc : c.isDigit = true := hdig c (by simp)
    have htrim : trimJSONSpace (c :: pre) = c :: pre :=
      trimJSONSpace_eq_self _ (fun x hx => isJSONSpace_of_isDigit x (hdig x hx))
    have hnull : ¬ (c :: pre = ['n', 'u', 'l', 'l']) := by
      intro h
      injection h with h1 _
      subst h1
      revert hc
      decide
    have hminus : ¬ (c = '-') := by
      rintro rfl
      revert hc
      decide
    have hn : n < 2 ^ 63 := by
      simp only [Int.ofNat_eq_coe] at hhi
      omega
    have hp := parseDigits_toDigits n
    rw [hd] at hp
    simp only [jsonUnmarshalInt64, hdata, hd, htrim, hnull, if_false, hminus, hp,
      Option.some_bind, hn, if_true]
    rfl
  | negSucc m =>
    obtain ⟨c, pre, heq, hdig, -, -⟩ := toDigitsCore_spec (m + 1 + 1) (m + 1) [] (by omega)
    have hd : Nat.toDigits 10 (m + 1) = c :: pre := by
      unfold Nat.toDigits
      rw [heq, List.append_nil]
    have hdata : (jsonMarshalInt64 (Int.negSucc m)).1.data = '-' :: Nat.toDigits 10 (m + 1) :=
      rfl
    have htrim : trimJSONSpace ('-' :: c :: pre) = '-' :: c :: pre := by
      apply trimJSONSpace_eq_self
      intro x hx
      rcases List.mem_cons.mp hx with h | h
      · subst h; decide
      · exact isJSONSpace_of_isDigit x (hdig x h)
    have hnull : ¬ ('-' :: c :: pre = ['n', 'u', 'l', 'l']) := by
      intro h
      injection h with h1 _
      revert h1
      decide
    have hm : m + 1 ≤ 2 ^ 63 := by
      have : -(2 ^ 63 : Int) ≤ Int.negSucc m := hlo
      rw [Int.negSucc_eq] at this
      have h2 : ((m : Int) + 1) ≤ 2 ^ 63 := by linarith
      exact_mod_cast h2
    have hp := parseDigits_toDigits (m + 1)
    rw [hd] at hp
    simp only [jsonUnmarshalInt64, hdata, hd, htrim, hnull, if_false, if_true, hp,
      Option.some_bind, hm]
    rw [Int.negSucc_eq]
    push_cast
    rfl

/-- The reduction to `int64`: the result is within the range of `int64`,
differs from the argument by a multiple of 2^64, and is the argument itself
when that is within the range. -/
theorem wrapInt64_spec (x : Int) :
    -(2 ^ 63) ≤ wrapInt64 x
    ∧ wrapInt64 x < 2 ^ 63
    ∧ (∃ k : Int, wrapInt64 x = x + k * 2 ^ 64)
    ∧ (-(2 ^ 63) ≤ x → x < 2 ^ 63 → wrapInt64 x = x) := by
  unfold wrapInt64
  refine ⟨by omega, by omega, ⟨-((x + 2 ^ 63) / 2 ^ 64), by omega⟩, ?_⟩
  intro h1 h2
  omega

/-- C15. Round trip of the timing probe: for every tick value `t` within the
range of `int64` and every clock reading `now`, `SendTicks` writes one ping
whose payload is the JSON encoding of `t`, and `ParseTicks` applied to that
payload returns a `nil` error and the duration `now - t` in 64-bit signed
wrapping arithmetic: the value within the range of `int64` that differs from
`now - t` by a multiple of 2^64, which is `now - t` itself whenever that is
within the range. -/
theorem C15_probe_round_trip (t now : Int) (deadline : Time) (writeErr : Option Error)
    (hlo : -(2 ^ 63) ≤ t) (hhi : t < 2 ^ 63) :
    (SendTicks t deadline writeErr).1
        = [.writeControl PingMessage (jsonMarshalInt64 t).1 deadline writeErr]
    ∧ (ParseTicks now (jsonMarshalInt64 t).1).2 = none
    ∧ -(2 ^ 63) ≤ (ParseTicks now (jsonMarshalInt64 t).1).1
    ∧ (ParseTicks now (jsonMarshalInt64 t).1).1 < 2 ^ 63
    ∧ (∃ k : Int, (ParseTicks now (jsonMarshalInt64 t).1).1 = now - t + k * 2 ^ 64)
    ∧ (-(2 ^ 63) ≤ now - t → now - t < 2 ^ 63 →
        (ParseTicks now (jsonMarshalInt64 t).1).1 = now - t) := by
  have hp : ParseTicks now (jsonMarshalInt64 t).1 = (wrapInt64 (now - t), none) := by
    simp only [ParseTicks, jsonUnmarshalInt64_marshal t 0 hlo hhi]
  have hw := wrapInt64_spec (now - t)
  rw [hp]
  exact ⟨by simp [SendTicks, jsonMarshalInt64], rfl, hw.1, hw.2.1, hw.2.2.1, hw.2.2.2⟩

/-- Witness of C15: the tick 1700000000000000000 is sent as its decimal
digits and read back 123456789 nanoseconds later; the tick -1 read back at the
largest clock reading gives the duration that wraps around to the smallest
`int64`. -/
theorem C15_probe_round_trip_witness :
    (SendTicks 1700000000000000000 0 none).1
        = [.writeControl PingMessage "1700000000000000000" 0 none]
    ∧ ParseTicks 1700000000123456789 "1700000000000000000" = (123456789, none)
    ∧ ParseTicks 9223372036854775807 "-1" = (-9223372036854775808, none) := by
  have h := C15_probe_round_trip 1700000000000000000 1700000000123456789 0 none
    (by decide) (by decide)
  have h' := C15_probe_round_trip (-1) 9223372036854775807 0 none (by decide) (by decide)
  have e1 : (jsonMarshalInt64 1700000000000000000).1 = "1700000000000000000" := by decide
  have e2 : (jsonMarshalInt64 (-1)).1 = "-1" := by decide
  rw [e1] at h
  rw [e2] at h'
  obtain ⟨hs, herr, -, -, -, hval⟩ := h
  obtain ⟨-, herr', hlo', hhi', ⟨k, hk⟩, -⟩ := h'
  refine ⟨hs, Prod.ext ?_ herr, Prod.ext ?_ herr'⟩
  · rw [hval (by decide) (by decide)]
    rfl
  · show (ParseTicks 9223372036854775807 "-1").1 = -9223372036854775808
    omega

/-! ## Listener: claim -/

/-- C18. The listening socket cannot be established: `ListenAndServeH3Async`
returns `nil` all the same, as it does in every case, whereas
`ListenAndServeTLSAsync` returns the error of `net.Listen`. -/
theorem C18_listenAndServeH3Async_returns_nil :
    ListenAndServeH3Async (some "listen udp :443: bind: address already in use") = none
    ∧ ListenAndServeTLSAsync (some "listen tcp :443: bind: address already in use")
        = some "listen tcp :443: bind: address already in use"
    ∧ (∀ listenErr : Option Error, ListenAndServeH3Async listenErr = none) :=
  ⟨rfl, rfl, fun _ => rfl⟩

/-! ## Handler: claims -/

/-- What `appendClientMetadata` returns when every key that is kept has a
value: the record with one entry appended per kept key, in the order of the
visit. -/
theorem appendClientMetadata_eq (values : List (String × List String)) :
    ∀ data : ArchivalData,
      (∀ p ∈ values, p.2 ≠ []) →
      appendClientMetadata data values =
        some { data with ClientMetadata := (data.ClientMetadata ++
          (values.filter (fun p => !excludeKeyRe p.1)).map
            (fun p => { Name := p.1, Value := p.2.headD "" })) } := by
  induction values with
  | nil => intro data _; simp [appendClientMetadata]
  | cons p rest ih =>
    intro data h
    obtain ⟨name, vals⟩ := p
    have hrest : ∀ q ∈ rest, q.2 ≠ [] := fun q hq => h q (by simp [hq])
    by_cases hex : excludeKeyRe name = true
    · simp [appendClientMetadata, hex, ih data hrest]
    · cases vals with
      | nil => exact absurd rfl (h (name, []) (by simp))
      | cons v more =>
        simp [appendClientMetadata, hex, ih _ hrest]

/-- C19. For every record and every map of request parameters in which each
key has at least one value, given as the list of its entries in the order of
the visit, `appendClientMetadata` keeps the existing entries and appends after
them one entry per key that does not begin with "server_", with the key as
name and the first value of the key as value: the names appended are the kept
keys (each once when the keys are distinct), no appended name begins with
"server_", and the values after the first play no part. -/
theorem C19_appendClientMetadata_appends_one_entry_per_kept_key
    (data : ArchivalData) (values : List (String × List String))
    (hvalues : ∀ p ∈ values, p.2 ≠ []) :
    ∃ appended : List NameValue,
      appendClientMetadata data values
          = some { data with ClientMetadata := data.ClientMetadata ++ appended }
      ∧ appended = (values.filter (fun p => !excludeKeyRe p.1)).map
          (fun p => { Name := p.1, Value := p.2.headD "" })
      ∧ appended.map (fun e => e.Name)
          = (values.map (fun p => p.1)).filter (fun name => !excludeKeyRe name)
      ∧ appended.length = (values.filter (fun p => !excludeKeyRe p.1)).length
      ∧ (∀ e ∈ appended, excludeKeyRe e.Name = false)
      ∧ (∀ (name value : String) (more : List String), (name, value :: more) ∈ values →
          excludeKeyRe name = false → { Name := name, Value := value } ∈ appended)
      ∧ ((values.map (fun p => p.1)).Nodup → (appended.map (fun e => e.Name)).Nodup) := by
  have hnames : ((values.filter (fun p => !excludeKeyRe p.1)).map
        (fun p => ({ Name := p.1, Value := p.2.headD "" } : NameValue))).map (fun e => e.Name)
      = (values.map (fun p => p.1)).filter (fun name => !excludeKeyRe name) := by
    rw [List.map_map, List.filter_map]
    rfl
  refine ⟨_, appendClientMetadata_eq values data hvalues, rfl, hnames, by simp, ?_, ?_, ?_⟩
  · intro e he
    rw [List.mem_map] at he
    obtain ⟨p, hp, rfl⟩ := he
    have := (List.mem_filter.mp hp).2
    simpa using this
  · intro name value more hmem hex
    rw [List.mem_map]
    exact ⟨(name, value :: more), List.mem_filter.mpr ⟨hmem, by simp [hex]⟩, rfl⟩
  · intro hnodup
    rw [hnames]
    exact hnodup.filter _

/-- Witness of C19: three keys, one of them multi-valued and one beginning
with "server_". -/
theorem C19_appendClientMetadata_appends_one_entry_per_kept_key_witness :
    ∃ appended : List NameValue,
      appendClientMetadata freshData sampleValues
          = some { freshData with ClientMetadata := freshData.ClientMetadata ++ appended }
      ∧ appended = [{ Name := "client_name", Value := "ndt7-js" },
                    { Name := "os", Value := "linux" }] := by
  obtain ⟨appended, h1, h2, -⟩ :=
    C19_appendClientMetadata_appends_one_entry_per_kept_key freshData sampleValues
      (by decide)
  exact ⟨appended, h1, by rw [h2]; rfl⟩

theorem getElem?_length_sub_one_append_singleton {α : Type} (pre : List α) (last : α) :
    (pre ++ [last])[(pre ++ [last]).length - 1]? = some last := by
  simp

/-- What `upRate` computes on a sequence that ends with `last`. -/
theorem upRate_append_singleton {F : Type} (ops : Float64Ops F) (pre : List Measurement)
    (last : Measurement) :
    upRate ops (pre ++ [last]) =
      match last.TCPInfo with
      | some tcpInfo =>
          ops.div (ops.mul (ops.ofInt64 8) (ops.ofInt64 tcpInfo.BytesReceived))
            (ops.ofInt64 tcpInfo.ElapsedTime)
      | none => ops.ofInt64 0 := by
  unfold upRate
  rw [getElem?_length_sub_one_append_singleton]
  simp

/-- What `downRate` computes on a sequence that ends with `last`. -/
theorem downRate_append_singleton {F : Type} (ops : Float64Ops F) (pre : List Measurement)
    (last : Measurement) :
    downRate ops (pre ++ [last]) =
      match last.TCPInfo with
      | some tcpInfo =>
          ops.div (ops.mul (ops.ofInt64 8) (ops.ofInt64 tcpInfo.BytesAcked))
            (ops.ofInt64 tcpInfo.ElapsedTime)
      | none => ops.ofInt64 0 := by
  unfold downRate
  rw [getElem?_length_sub_one_append_singleton]
  simp

/-- C20. `upRate` and `downRate` depend only on the last measurement of the
sequence: the result is the `float64` zero when the sequence is empty or its
last element has no `TCPInfo`; otherwise it is the quotient of 8 times
`BytesReceived` (`upRate`) or `BytesAcked` (`downRate`) by `ElapsedTime`, all
of the last element, whatever the arithmetic of `float64` is. Computed on the
rationals, for a positive `ElapsedTime` in microseconds, that quotient is the
number of megabits (bits over 10^6) divided by the number of seconds
(microseconds over 10^6). -/
theorem C20_rates_depend_on_the_last_measurement {F : Type} (ops : Float64Ops F) :
    upRate ops [] = ops.ofInt64 0
    ∧ downRate ops [] = ops.ofInt64 0
    ∧ (∀ (pre : List Measurement) (last : Measurement),
        upRate ops (pre ++ [last]) = upRate ops [last]
        ∧ downRate ops (pre ++ [last]) = downRate ops [last])
    ∧ (∀ (pre : List Measurement) (last : Measurement), last.TCPInfo = none →
        upRate ops (pre ++ [last]) = ops.ofInt64 0
        ∧ downRate ops (pre ++ [last]) = ops.ofInt64 0)
    ∧ (∀ (pre : List Measurement) (last : Measurement) (tcpInfo : TCPInfo),
        last.TCPInfo = some tcpInfo →
        upRate ops (pre ++ [last])
            = ops.div (ops.mul (ops.ofInt64 8) (ops.ofInt64 tcpInfo.BytesReceived))
                (ops.ofInt64 tcpInfo.ElapsedTime)
        ∧ downRate ops (pre ++ [last])
            = ops.div (ops.mul (ops.ofInt64 8) (ops.ofInt64 tcpInfo.BytesAcked))
                (ops.ofInt64 tcpInfo.ElapsedTime))
    ∧ (∀ (pre : List Measurement) (last : Measurement) (tcpInfo : TCPInfo),
        last.TCPInfo = some tcpInfo → 0 < tcpInfo.ElapsedTime →
        upRate exactOps (pre ++ [last])
            = (8 * (tcpInfo.BytesReceived : ℚ) / 10 ^ 6) / ((tcpInfo.ElapsedTime : ℚ) / 10 ^ 6)
        ∧ downRate exactOps (pre ++ [last])
            = (8 * (tcpInfo.BytesAcked : ℚ) / 10 ^ 6) / ((tcpInfo.ElapsedTime : ℚ) / 10 ^ 6)) := by
  refine ⟨rfl, rfl, ?_, ?_, ?_, ?_⟩
  · intro pre last
    have h1 := upRate_append_singleton ops [] last
    have h2 := downRate_append_singleton ops [] last
    rw [List.nil_append] at h1 h2
    rw [upRate_append_singleton, downRate_append_singleton, h1, h2]
    exact ⟨rfl, rfl⟩
  · intro pre last h
    rw [upRate_append_singleton, downRate_append_singleton, h]
    exact ⟨rfl, rfl⟩
  · intro pre last tcpInfo h
    rw [upRate_append_singleton, downRate_append_singleton, h]
    exact ⟨rfl, rfl⟩
  · intro pre last tcpInfo h hpos
    rw [upRate_append_singleton, downRate_append_singleton, h]
    have hne : (tcpInfo.ElapsedTime : ℚ) ≠ 0 := by
      have : (0 : ℚ) < (tcpInfo.ElapsedTime : ℚ) := by exact_mod_cast hpos
      exact ne_of_gt this
    simp only [exactOps]
    constructor <;> field_simp

/-- Witness of C20: 5000000 bytes received and 2500000 bytes acked in 2
seconds are 20 and 10 megabits per second. -/
theorem C20_rates_depend_on_the_last_measurement_witness :
    upRate exactOps ([bareMeasurement] ++ [sampleTCPMeasurement]) = 20
    ∧ downRate exactOps ([bareMeasurement] ++ [sampleTCPMeasurement]) = 10
    ∧ upRate exactOps ([sampleTCPMeasurement] ++ [bareMeasurement]) = 0 := by
  have h := (C20_rates_depend_on_the_last_measurement exactOps).2.2.2.2.2
    [bareMeasurement] sampleTCPMeasurement
    { BytesReceived := 5000000, BytesAcked := 2500000, ElapsedTime := 2000000 } rfl
    (by decide)
  have h0 := (C20_rates_depend_on_the_last_measurement exactOps).2.2.2.1
    [sampleTCPMeasurement] bareMeasurement rfl
  refine ⟨?_, ?_, ?_⟩
  · rw [h.1]; norm_num
  · rw [h.2]; norm_num
  · rw [h0.1]; simp [exactOps]

/-! ## Stream receiver: the subtest kind -/

/-- The run of the stream receiver of any kind is the run of the download
receiver with the kind label of the counter replaced. -/
theorem startWebTransportLoop_kind (kind : receiverKind) (events : List StreamEvent)
    (data : ArchivalData) (mr : WebTransportMeasurer) :
    startWebTransportLoop kind events data mr =
      { data := (startWebTransportLoop .downloadReceiver events data mr).data,
        mr := (startWebTransportLoop .downloadReceiver events data mr).mr,
        stopped := (startWebTransportLoop .downloadReceiver events data mr).stopped.map
          (fun labels => (kind.label, labels.2)) } := by
  cases events with
  | nil => rfl
  | cons e rest =>
    cases e with
    | ctxExpired => rfl
    | acceptError => rfl
    | stream reads =>
      rw [startWebTransportLoop_first_stream, startWebTransportLoop_first_stream]
      rfl

/-- C21. The stream receiver ignores the subtest kind. For every list of
inbound stream events, every record and every measurer, the download receiver
and the upload receiver leave the same record and the same `BytesReceived`
tally, and they have stopped or not alike, for the same reason, on the list
and on each of its initial parts (so they stop at the same point); when they
have stopped, the counter they incremented carries the kind label "0" for the
one and "1" for the other, and nothing else differs. -/
theorem C21_stream_receiver_ignores_the_kind
    (events : List StreamEvent) (data : ArchivalData) (mr : WebTransportMeasurer) :
    (StartWebTransportDownloadReceiverAsync events data mr).data
        = (StartWebTransportUploadReceiverAsync events data mr).data
    ∧ (StartWebTransportDownloadReceiverAsync events data mr).mr
        = (StartWebTransportUploadReceiverAsync events data mr).mr
    ∧ (StartWebTransportDownloadReceiverAsync events data mr).stopped.map (fun labels => labels.2)
        = (StartWebTransportUploadReceiverAsync events data mr).stopped.map
            (fun labels => labels.2)
    ∧ (∀ n : Nat,
        (StartWebTransportDownloadReceiverAsync (events.take n) data mr).stopped.map
            (fun labels => labels.2)
          = (StartWebTransportUploadReceiverAsync (events.take n) data mr).stopped.map
              (fun labels => labels.2))
    ∧ (StartWebTransportDownloadReceiverAsync events data mr).stopped.map (fun labels => labels.1)
        = (StartWebTransportDownloadReceiverAsync events data mr).stopped.map (fun _ => "0")
    ∧ (StartWebTransportUploadReceiverAsync events data mr).stopped.map (fun labels => labels.1)
        = (StartWebTransportUploadReceiverAsync events data mr).stopped.map (fun _ => "1")
    ∧ StartWebTransportUploadReceiverAsync events data mr
        = { StartWebTransportDownloadReceiverAsync events data mr with
            stopped := (StartWebTransportDownloadReceiverAsync events data mr).stopped.map
              (fun labels => ("1", labels.2)) }
    ∧ (StartWebTransportDownloadReceiverAsync [completeStream [10]] freshData
        (NewWebTransport "uuid")).stopped = some ("0", "read-message")
    ∧ (StartWebTransportUploadReceiverAsync [completeStream [10]] freshData
        (NewWebTransport "uuid")).stopped = some ("1", "read-message") := by
  have hup : ∀ evs : List StreamEvent,
      StartWebTransportUploadReceiverAsync evs data mr
        = { data := (StartWebTransportDownloadReceiverAsync evs data mr).data,
            mr := (StartWebTransportDownloadReceiverAsync evs data mr).mr,
            stopped := (StartWebTransportDownloadReceiverAsync evs data mr).stopped.map
              (fun labels => ("1", labels.2)) } := by
    intro evs
    simp only [StartWebTransportUploadReceiverAsync, StartWebTransportDownloadReceiverAsync,
      startWebTransport]
    rw [startWebTransportLoop_kind .uploadReceiver]
    rfl
  have hdown : (StartWebTransportDownloadReceiverAsync events data mr).stopped.map
        (fun labels => labels.1)
      = (StartWebTransportDownloadReceiverAsync events data mr).stopped.map (fun _ => "0") := by
    simp only [StartWebTransportDownloadReceiverAsync, startWebTransport]
    rw [startWebTransportLoop_kind .downloadReceiver]
    simp [Option.map_map, Function.comp_def, receiverKind.label]
  refine ⟨?_, ?_, ?_, ?_, hdown, ?_, ?_, rfl, rfl⟩
  · rw [hup]
  · rw [hup]
  · rw [hup]; simp [Option.map_map, Function.comp_def]
  · intro n
    rw [hup]; simp [Option.map_map, Function.comp_def]
  · rw [hup]; simp [Option.map_map, Function.comp_def]
  · rw [hup]

end Ndt7
